import Mathlib

/-!
Verification development for the interactive raytracer's core
(`primitives.rs`, `scene.rs`, `camera.rs`, `raytracer.rs`).

Modelling conventions:
* `f32` scalars are embedded as exact rationals `ℚ`; parametric upper
  bounds that the code sets to `f32::INFINITY` are embedded as
  `WithTop ℚ` so that `⊤` plays the role of infinity in comparisons and
  `min`, exactly as IEEE infinity does in the source's comparisons.
* `f32::sqrt` is embedded as `ratSqrt`, which is exact on rationals that
  are perfect squares and returns `0` otherwise; it is nonnegative like
  the source's square root.  Theorems whose truth depends on the square
  root being exact carry that exactness as an explicit hypothesis.
* `f32::powf` and the tangent used by the camera are transcendental; they
  are threaded through as explicit function arguments (`qpow`, `tanHalfFov`)
  since no claim depends on their values.
* The source file `math.rs` is not part of the sources; `Ray`,
  `reflect`, `refract`, `reflectance` and `random_unit_vector` are
  modelled from the spec (each such definition says so in its comment).
* Randomness: the source draws from an unseeded `thread_rng`.  The claims
  about the stochastic routines are premised on "identical random draws"
  at corresponding decision points, so random draws are modelled as
  explicit functions indexed by the recursion depth at which the source
  draws them (`rng` for the dielectric branch scalar, `ruv` for
  `random_unit_vector`), and by a running sample counter for the pixel
  jitter.
-/

namespace RT

/-- Square root on `ℚ`: exact on perfect squares, `0` otherwise, always
nonnegative.  Embeds `f32::sqrt` (see the module comment). -/
def ratSqrt (q : ℚ) : ℚ :=
  if 0 ≤ q ∧ (Nat.sqrt q.num.toNat) ^ 2 = q.num.toNat ∧ (Nat.sqrt q.den) ^ 2 = q.den then
    (Nat.sqrt q.num.toNat : ℚ) / (Nat.sqrt q.den : ℚ)
  else 0

theorem ratSqrt_nonneg (q : ℚ) : 0 ≤ ratSqrt q := by
  unfold ratSqrt
  split
  · apply div_nonneg <;> positivity
  · exact le_rfl

/-- `glam::Vec3` with rational components. -/
structure Vec3 where
  x : ℚ
  y : ℚ
  z : ℚ
deriving DecidableEq, Repr

namespace Vec3

def zero : Vec3 := ⟨0, 0, 0⟩

def one : Vec3 := ⟨1, 1, 1⟩

instance : Add Vec3 := ⟨fun a b => ⟨a.x + b.x, a.y + b.y, a.z + b.z⟩⟩

instance : Sub Vec3 := ⟨fun a b => ⟨a.x - b.x, a.y - b.y, a.z - b.z⟩⟩

instance : Neg Vec3 := ⟨fun a => ⟨-a.x, -a.y, -a.z⟩⟩

/-- Component-wise product, the semantics of `glam`'s `Vec3 * Vec3`. -/
instance : Mul Vec3 := ⟨fun a b => ⟨a.x * b.x, a.y * b.y, a.z * b.z⟩⟩

/-- Scalar multiplication (`Vec3 * f32` in `glam`). -/
def scale (a : Vec3) (k : ℚ) : Vec3 := ⟨a.x * k, a.y * k, a.z * k⟩

def dot (a b : Vec3) : ℚ := a.x * b.x + a.y * b.y + a.z * b.z

/-- `glam::Vec3::length_squared`. -/
def length_squared (a : Vec3) : ℚ := dot a a

/-- `glam::Vec3::length`, via the embedded square root. -/
def length (a : Vec3) : ℚ := ratSqrt (length_squared a)

/-- `glam::Vec3::normalize`: divide by the length. -/
def normalize (a : Vec3) : Vec3 := a.scale (1 / a.length)

/-- Component access, `v[i]` in the source. -/
def nth (a : Vec3) : Fin 3 → ℚ
  | 0 => a.x
  | 1 => a.y
  | 2 => a.z

/-- The vector that is zero except for value `s` at component `i`
(`normal = Vec3::ZERO; normal[i] = sign` in the source). -/
def unitAxis : Fin 3 → ℚ → Vec3
  | 0, s => ⟨s, 0, 0⟩
  | 1, s => ⟨0, s, 0⟩
  | 2, s => ⟨0, 0, s⟩

/-- `glam`'s `Vec3::reflect`, and `math.rs`'s `reflect`.
Modelled from the spec: `reflect(v, n) = v − 2·(v·n)·n` (math.rs is not
among the sources). -/
def reflect (v n : Vec3) : Vec3 := v - n.scale (2 * dot v n)

theorem add_def (a b : Vec3) : a + b = ⟨a.x + b.x, a.y + b.y, a.z + b.z⟩ := rfl

theorem sub_def (a b : Vec3) : a - b = ⟨a.x - b.x, a.y - b.y, a.z - b.z⟩ := rfl

theorem neg_def (a : Vec3) : -a = ⟨-a.x, -a.y, -a.z⟩ := rfl

theorem mul_def (a b : Vec3) : a * b = ⟨a.x * b.x, a.y * b.y, a.z * b.z⟩ := rfl

end Vec3

/-- Modelled from the spec: `math.rs`'s `Ray` — origin, direction (not
necessarily normalized), `at(t) = origin + t·direction`; `Ray::new`
stores both fields unchanged. -/
structure Ray where
  origin : Vec3
  direction : Vec3
deriving DecidableEq, Repr

def Ray.at (r : Ray) (t : ℚ) : Vec3 := r.origin + r.direction.scale t

/-- Modelled from the spec: Schlick's polynomial approximation of the
Fresnel reflectance (`math.rs` is not among the sources):
`r0 = ((1−η)/(1+η))²`, `r0 + (1−r0)(1−cosθ)^5`. -/
def reflectance (cosine refIdx : ℚ) : ℚ :=
  let r0 := ((1 - refIdx) / (1 + refIdx)) ^ 2
  r0 + (1 - r0) * (1 - cosine) ^ 5

/-- Modelled from the spec: `math.rs`'s `refract` applies Snell's law in
vector form: the perpendicular part is `η·(uv + cosθ·n)` and the
parallel part is `−√|1 − ‖perp‖²|·n`. -/
def refract (uv n : Vec3) (etaiOverEtat : ℚ) : Vec3 :=
  let cosTheta := min (Vec3.dot (-uv) n) 1
  let rOutPerp := (uv + n.scale cosTheta).scale etaiOverEtat
  let rOutParallel := n.scale (-(ratSqrt |1 - rOutPerp.length_squared|))
  rOutPerp + rOutParallel

/-- `MaterialType` from `primitives.rs`. -/
inductive MaterialType where
  | Lambertian
  | Metal
  | Dielectric
deriving DecidableEq, Repr

/-- `Material` from `primitives.rs`. -/
structure Material where
  color : Vec3
  specular : ℚ
  shininess : ℚ
  reflectivity : ℚ
  roughness : ℚ
  ior : ℚ
  mat_type : MaterialType
deriving DecidableEq, Repr

/-- `HitRecord` from `primitives.rs`. -/
structure HitRecord where
  t : ℚ
  point : Vec3
  normal : Vec3
  material : Material
deriving DecidableEq, Repr

/-- `Sphere` from `primitives.rs`. -/
structure Sphere where
  center : Vec3
  radius : ℚ
  material : Material
deriving DecidableEq, Repr

/-- `Sphere::intersect` from `primitives.rs`: solve
`a t² + 2·half_b·t + c = 0`, reject on negative discriminant, prefer the
smaller root inside `[t_min, t_max]`, fall back to the larger root. -/
def Sphere.intersect (s : Sphere) (ray : Ray) (t_min : ℚ) (t_max : WithTop ℚ) :
    Option HitRecord :=
  let oc := ray.origin - s.center
  let a := ray.direction.length_squared
  let half_b := Vec3.dot oc ray.direction
  let c := oc.length_squared - s.radius * s.radius
  let discriminant := half_b * half_b - a * c
  if discriminant < 0 then none
  else
    let sqrtd := ratSqrt discriminant
    let root := (-half_b - sqrtd) / a
    if root < t_min ∨ t_max < (root : WithTop ℚ) then
      let root2 := (-half_b + sqrtd) / a
      if root2 < t_min ∨ t_max < (root2 : WithTop ℚ) then none
      else
        let point := ray.at root2
        some ⟨root2, point, (point - s.center).scale (1 / s.radius), s.material⟩
    else
      let point := ray.at root
      some ⟨root, point, (point - s.center).scale (1 / s.radius), s.material⟩

/-- `Plane` from `primitives.rs`. -/
structure Plane where
  point : Vec3
  normal : Vec3
  material : Material
deriving DecidableEq, Repr

/-- `Plane::intersect` from `primitives.rs`. -/
def Plane.intersect (p : Plane) (ray : Ray) (t_min : ℚ) (t_max : WithTop ℚ) :
    Option HitRecord :=
  let denom := Vec3.dot p.normal ray.direction
  if |denom| > 1 / 1000000 then
    let t := Vec3.dot (p.point - ray.origin) p.normal / denom
    if t ≥ t_min ∧ ((t : WithTop ℚ) ≤ t_max) then
      some ⟨t, ray.at t, p.normal, p.material⟩
    else none
  else none

/-- `Cube` from `primitives.rs`. -/
structure Cube where
  min : Vec3
  max : Vec3
  material : Material
deriving DecidableEq, Repr

/-- Running state of the slab loop in `Cube::intersect`. -/
structure SlabState where
  t_near : ℚ
  t_far : WithTop ℚ
  normal : Vec3
deriving DecidableEq, Repr

/-- One iteration of the slab loop in `Cube::intersect` (axis `i`):
near-parallel rays reject unless the origin is inside the slab;
otherwise the entry/exit interval is intersected into the running
window, recording the axis/sign of the latest entry as the normal, and
rejecting when the window empties. -/
def slabAxis (minVal maxVal origin direction : ℚ) (i : Fin 3) (st : SlabState) :
    Option SlabState :=
  if |direction| < 1 / 1000000 then
    if origin < minVal ∨ origin > maxVal then none else some st
  else
    let t1 := (minVal - origin) / direction
    let t2 := (maxVal - origin) / direction
    let e : ℚ × ℚ × ℚ := if t1 > t2 then (t2, t1, 1) else (t1, t2, -1)
    let st1 : SlabState :=
      if e.1 > st.t_near then ⟨e.1, st.t_far, Vec3.unitAxis i e.2.2⟩ else st
    let st2 : SlabState :=
      if (e.2.1 : WithTop ℚ) < st1.t_far then ⟨st1.t_near, (e.2.1 : WithTop ℚ), st1.normal⟩
      else st1
    if (st2.t_near : WithTop ℚ) > st2.t_far then none else some st2

/-- `Cube::intersect` from `primitives.rs`: the slab method, unrolled over
the three axes of the source's `for i in 0..3` loop. -/
def Cube.intersect (cb : Cube) (ray : Ray) (t_min : ℚ) (t_max : WithTop ℚ) :
    Option HitRecord :=
  let step : Fin 3 → SlabState → Option SlabState := fun i =>
    slabAxis (cb.min.nth i) (cb.max.nth i) (ray.origin.nth i) (ray.direction.nth i) i
  ((step 0 ⟨t_min, t_max, Vec3.zero⟩).bind (step 1)).bind (step 2) |>.map
    fun st => ⟨st.t_near, ray.at st.t_near, st.normal, cb.material⟩

/-- `LightType` from `primitives.rs`. -/
inductive LightType where
  | Point
  | Directional
deriving DecidableEq, Repr

/-- `Light` from `primitives.rs`. -/
structure Light where
  light_type : LightType
  position : Vec3
  direction : Vec3
  color : Vec3
  intensity : ℚ
deriving DecidableEq, Repr

/-- `Scene` from `scene.rs`. -/
structure Scene where
  spheres : List Sphere
  cubes : List Cube
  planes : List Plane
  lights : List Light

/-- `Scene::intersect` from `scene.rs`: linear scan over spheres, then
cubes, then planes, shrinking the upper bound to each accepted hit's `t`. -/
def Scene.intersect (s : Scene) (ray : Ray) (t_min : ℚ) (t_max : WithTop ℚ) :
    Option HitRecord :=
  let step : Option HitRecord × WithTop ℚ → Option HitRecord → Option HitRecord × WithTop ℚ :=
    fun acc oh =>
      match oh with
      | some hit => (some hit, (hit.t : WithTop ℚ))
      | none => acc
  let acc1 := s.spheres.foldl (fun acc sp => step acc (sp.intersect ray t_min acc.2))
    (none, t_max)
  let acc2 := s.cubes.foldl (fun acc cb => step acc (cb.intersect ray t_min acc.2)) acc1
  let acc3 := s.planes.foldl (fun acc pl => step acc (pl.intersect ray t_min acc.2)) acc2
  acc3.1

/-! ### Concrete fixtures used by witnesses and counterexamples -/

/-- A plain Lambertian material. -/
def mat0 : Material := ⟨⟨1, 1, 1⟩, 1 / 2, 32, 0, 0, 3 / 2, MaterialType.Lambertian⟩

/-- The unit sphere at the origin. -/
def unitSphere : Sphere := ⟨⟨0, 0, 0⟩, 1, mat0⟩

/-- The box `[-1,-1,-1]..[1,1,1]`. -/
def unitCube : Cube := ⟨⟨-1, -1, -1⟩, ⟨1, 1, 1⟩, mat0⟩

/-- A ray fired along `-Z` from `(0,0,5)`. -/
def axisRay : Ray := ⟨⟨0, 0, 5⟩, ⟨0, 0, -1⟩⟩

/-- A ray starting at the origin, inside `unitCube`. -/
def insideRay : Ray := ⟨⟨0, 0, 0⟩, ⟨0, 0, 1⟩⟩

/-- The hit record `axisRay` produces on `unitSphere` and on `unitCube`. -/
def axisHit : HitRecord := ⟨4, ⟨0, 0, 1⟩, ⟨0, 0, 1⟩, mat0⟩

/-- A red Lambertian material. -/
def redMat : Material := ⟨⟨1, 0, 0⟩, 1 / 2, 32, 0, 0, 3 / 2, MaterialType.Lambertian⟩

/-- A blue Lambertian material. -/
def blueMat : Material := ⟨⟨0, 0, 1⟩, 1 / 2, 32, 0, 0, 3 / 2, MaterialType.Lambertian⟩

/-- The unit sphere at the origin, red. -/
def redSphere : Sphere := ⟨⟨0, 0, 0⟩, 1, redMat⟩

/-- The unit sphere at the origin, blue — geometrically identical to
`redSphere`, so every ray hits both at exactly the same `t`. -/
def blueSphere : Sphere := ⟨⟨0, 0, 0⟩, 1, blueMat⟩

/-- A scene holding the two coincident spheres, red scanned first. -/
def twoSpheresScene : Scene := ⟨[redSphere, blueSphere], [], [], []⟩

/-- A scene holding only `unitSphere`. -/
def oneSphereScene : Scene := ⟨[unitSphere], [], [], []⟩

/-- A glass (Dielectric) material with `ior = 3/2`. -/
def glassMat : Material := ⟨⟨1, 1, 1⟩, 1, 100, 0, 0, 3 / 2, MaterialType.Dielectric⟩

/-- The unit glass sphere at the origin. -/
def glassSphere : Sphere := ⟨⟨0, 0, 0⟩, 1, glassMat⟩

/-- A scene holding only `glassSphere`, with no lights. -/
def glassScene : Scene := ⟨[glassSphere], [], [], []⟩

/-- The hit `axisRay` produces on `glassSphere`. -/
def glassHit : HitRecord := ⟨4, ⟨0, 0, 1⟩, ⟨0, 0, 1⟩, glassMat⟩

/-- A very rough Metal material (`roughness = 2`). -/
def metalMat : Material := ⟨⟨1, 1, 1⟩, 1 / 2, 32, 0, 2, 3 / 2, MaterialType.Metal⟩

/-- The unit rough-metal sphere at the origin. -/
def metalSphere : Sphere := ⟨⟨0, 0, 0⟩, 1, metalMat⟩

/-- A scene holding only `metalSphere`, with no lights. -/
def metalScene : Scene := ⟨[metalSphere], [], [], []⟩


/-! ### Specification-side definitions for the closest-hit claim -/

/-- One step of `Scene::intersect`'s scan, abstracted over the primitive
query: an accepted hit replaces the accumulator and shrinks the upper
bound to its `t`. -/
def scanStep (acc : Option HitRecord × WithTop ℚ) (q : WithTop ℚ → Option HitRecord) :
    Option HitRecord × WithTop ℚ :=
  match q acc.2 with
  | some hit => (some hit, (hit.t : WithTop ℚ))
  | none => acc

/-- The scene's primitives in scan order, each as a closest-hit query over
the remaining upper bound. -/
def Scene.queries (s : Scene) (ray : Ray) (t_min : ℚ) :
    List (WithTop ℚ → Option HitRecord) :=
  s.spheres.map (fun sp ct => sp.intersect ray t_min ct) ++
    s.cubes.map (fun cb ct => cb.intersect ray t_min ct) ++
    s.planes.map (fun pl ct => pl.intersect ray t_min ct)

/-- All hits of the full interval `[t_min, t_max]`, one independent query
per primitive, in scan order (spheres, then cubes, then planes). -/
def Scene.allHits (s : Scene) (ray : Ray) (t_min : ℚ) (t_max : WithTop ℚ) :
    List HitRecord :=
  s.spheres.filterMap (fun sp => sp.intersect ray t_min t_max) ++
    s.cubes.filterMap (fun cb => cb.intersect ray t_min t_max) ++
    s.planes.filterMap (fun pl => pl.intersect ray t_min t_max)

/-- Fold selecting the hit with the smallest `t`; on an exact tie the new
(later-scanned) hit replaces the old one, mirroring the source's
non-strict acceptance `t <= closest_t`. -/
def bestAux (b : Option HitRecord) (l : List HitRecord) : Option HitRecord :=
  l.foldl
    (fun acc h =>
      match acc with
      | none => some h
      | some b2 => if h.t ≤ b2.t then some h else some b2)
    b

/-- A query is consistent when shrinking the upper bound only filters its
full-interval answer. -/
def QueryConsistent (t_min : ℚ) (t_max : WithTop ℚ)
    (q : WithTop ℚ → Option HitRecord) : Prop :=
  ∀ ct : ℚ, t_min ≤ ct → (ct : WithTop ℚ) ≤ t_max →
    q (ct : WithTop ℚ) = (q t_max).bind fun h => if h.t ≤ ct then some h else none

/-- A query only answers inside the requested interval (for upper bounds
at or above `t_min`). -/
def QueryInRange (t_min : ℚ) (q : WithTop ℚ → Option HitRecord) : Prop :=
  ∀ (b : WithTop ℚ) (h : HitRecord), (t_min : WithTop ℚ) ≤ b → q b = some h →
    t_min ≤ h.t ∧ (h.t : WithTop ℚ) ≤ b

/-- Invariant of the slab scan relating the running normal to the entered
face: either no axis has tightened the window yet (`normal = 0`,
`t_near = t_min`), or the normal is the outward axis unit vector of the
face whose plane the ray crosses at `t_near` — `+1` for a max face, `-1`
for a min face — and the window has strictly tightened past `t_min`. -/
def CubeNormalInv (cb : Cube) (ray : Ray) (t_min : ℚ) (st : SlabState) : Prop :=
  (st.normal = Vec3.zero ∧ st.t_near = t_min) ∨
    ∃ (j : Fin 3) (sg : ℚ),
      ((sg = 1 ∧ ray.origin.nth j + ray.direction.nth j * st.t_near = cb.max.nth j) ∨
        (sg = -1 ∧ ray.origin.nth j + ray.direction.nth j * st.t_near = cb.min.nth j)) ∧
      st.normal = Vec3.unitAxis j sg ∧ t_min < st.t_near

/-! ### The raytracer (`raytracer.rs`) -/

/-- Modelled from the spec: a quaternion (`glam::Quat`), used only to
derive the camera basis vectors. -/
structure Quat where
  w : ℚ
  x : ℚ
  y : ℚ
  z : ℚ
deriving DecidableEq, Repr

/-- Cross product, `glam::Vec3::cross`. -/
def Vec3.cross (a b : Vec3) : Vec3 :=
  ⟨a.y * b.z - a.z * b.y, a.z * b.x - a.x * b.z, a.x * b.y - a.y * b.x⟩

/-- Rotation of a vector by a (unit) quaternion,
`v + 2·cross(q.xyz, cross(q.xyz, v) + w·v)`. -/
def Quat.rotate (q : Quat) (v : Vec3) : Vec3 :=
  let u : Vec3 := ⟨q.x, q.y, q.z⟩
  v + (Vec3.cross u (Vec3.cross u v + v.scale q.w)).scale 2

/-- Modelled from the spec: `math.rs`'s `Transform` — position, rotation,
scale, deriving forward/right/up from the rotation (`glam` convention:
forward is rotated `-Z`, matching `look_at`'s `Mat3(right, up, -forward)`). -/
structure Transform where
  position : Vec3
  rotation : Quat
  scl : Vec3
deriving DecidableEq, Repr

def Transform.forward (t : Transform) : Vec3 := t.rotation.rotate ⟨0, 0, -1⟩

def Transform.right (t : Transform) : Vec3 := t.rotation.rotate ⟨1, 0, 0⟩

def Transform.up (t : Transform) : Vec3 := t.rotation.rotate ⟨0, 1, 0⟩

/-- `Camera` from `camera.rs`. -/
structure Camera where
  transform : Transform
  fov : ℚ
  aspect_ratio : ℚ
deriving DecidableEq, Repr

/-- `Camera::get_ray` from `camera.rs`.  The transcendental
`(fov.to_radians() / 2).tan()` is abstracted as the function argument
`tanHalfFov` applied to the stored `fov` (see the module comment). -/
def Camera.getRay (cam : Camera) (tanHalfFov : ℚ → ℚ) (u v : ℚ) : Ray :=
  let h := tanHalfFov cam.fov
  let viewport_height := 2 * h
  let viewport_width := cam.aspect_ratio * viewport_height
  let forward := cam.transform.forward
  let right := cam.transform.right
  let up := cam.transform.up
  let horizontal := right.scale viewport_width
  let vertical := up.scale viewport_height
  let lower_left_corner :=
    cam.transform.position - horizontal.scale (1 / 2) - vertical.scale (1 / 2) + forward
  let direction :=
    lower_left_corner + horizontal.scale u + vertical.scale v - cam.transform.position
  ⟨cam.transform.position, direction⟩

/-- The random draws consumed by the stochastic routines, as explicit
functions (see the module comment): `qpow` embeds `f32::powf`; `rng d` is
the `thread_rng().gen()` scalar drawn for the dielectric branch at
recursion depth `d`; `ruv d` is the `random_unit_vector()` drawn at
recursion depth `d`. -/
structure Env where
  qpow : ℚ → ℚ → ℚ
  rng : ℕ → ℚ
  ruv : ℕ → Vec3

/-- A concrete draw environment: `powf` constantly `0`, the dielectric
scalar draw constantly `1/2`, and `random_unit_vector` constantly
`(0,0,-1)`. -/
def env0 : Env := ⟨fun _ _ => 0, fun _ => 1 / 2, fun _ => ⟨0, 0, -1⟩⟩

/-- `RenderMode` from `raytracer.rs`. -/
inductive RenderMode where
  | Raytracing
  | Pathtracing
deriving DecidableEq, Repr

/-- `Raytracer` from `raytracer.rs`. -/
structure Raytracer where
  width : ℕ
  height : ℕ
  max_bounces : ℕ
  samples_per_pixel : ℕ
  mode : RenderMode

/-- `RaySegmentType` from `raytracer.rs`. -/
inductive RaySegmentType where
  | Primary
  | Reflection
  | Refraction
  | Diffuse
deriving DecidableEq, Repr

/-- `RayPath` from `raytracer.rs`. -/
structure RayPath where
  points : List Vec3
  segment_types : List RaySegmentType
  hit : Bool
deriving DecidableEq, Repr

/-- The sky gradient both integrators return on a miss. -/
def skyColor (ray : Ray) : Vec3 :=
  let unit_direction := ray.direction.normalize
  let t := 1 / 2 * (unit_direction.y + 1)
  Vec3.one.scale (1 - t) + (⟨1 / 2, 7 / 10, 1⟩ : Vec3).scale t

/-- `Raytracer::trace_ray` from `raytracer.rs` (the Whitted integrator):
depth 0 is black; on a hit, ambient `color × 0.1`, per-light diffuse and
specular behind a shadow ray, an additive mirror reflection when
`reflectivity > 0`, and for Dielectric materials the entire accumulated
color is replaced by the recursion along the stochastically chosen
reflected or refracted ray. -/
def traceRay (env : Env) (scene : Scene) : Ray → ℕ → Vec3
  | _, 0 => Vec3.zero
  | ray, depth + 1 =>
    match scene.intersect ray (1 / 1000) ⊤ with
    | some hit =>
      let view_dir := -ray.direction
      let ambient := hit.material.color.scale (1 / 10)
      let color := scene.lights.foldl
        (fun acc light =>
          let ld : Vec3 × WithTop ℚ :=
            match light.light_type with
            | LightType.Directional => (-(light.direction.normalize), ⊤)
            | LightType.Point =>
              let dir := light.position - hit.point
              (dir.normalize, ((dir.length : ℚ) : WithTop ℚ))
          if (scene.intersect ⟨hit.point, ld.1⟩ (1 / 1000) ld.2).isNone then
            let diff := max (Vec3.dot hit.normal ld.1) 0
            let acc1 := acc +
              (((hit.material.color * light.color).scale diff).scale light.intensity)
            let reflect_dir := Vec3.reflect (-ld.1) hit.normal
            let spec := env.qpow (max (Vec3.dot view_dir reflect_dir) 0)
              hit.material.shininess
            acc1 + ((light.color.scale hit.material.specular).scale spec).scale
              light.intensity
          else acc)
        ambient
      let color2 :=
        if hit.material.reflectivity > 0 then
          color + (traceRay env scene ⟨hit.point, Vec3.reflect ray.direction hit.normal⟩
            depth).scale hit.material.reflectivity
        else color
      if hit.material.mat_type = MaterialType.Dielectric then
        let unit_direction := ray.direction.normalize
        let d := Vec3.dot unit_direction hit.normal
        let nr : Vec3 × ℚ :=
          if d < 0 then (hit.normal, 1 / hit.material.ior)
          else (-hit.normal, hit.material.ior)
        let cos_theta := min (Vec3.dot (-unit_direction) nr.1) 1
        let sin_theta := ratSqrt (1 - cos_theta * cos_theta)
        let cannot_refract := nr.2 * sin_theta > 1
        let direction :=
          if cannot_refract ∨ reflectance cos_theta nr.2 > env.rng (depth + 1) then
            Vec3.reflect unit_direction nr.1
          else refract unit_direction nr.1 nr.2
        traceRay env scene ⟨hit.point, direction⟩ depth
      else color2
    | none => skyColor ray

/-- `Raytracer::trace_pathtrace` from `raytracer.rs` (the path tracer):
depth 0 is black; next-event-estimation direct lighting for non-specular
materials, then one stochastic scatter (cosine Lambertian, perturbed
mirror Metal with absorption when the scatter enters the surface,
Schlick-selected reflect/refract for Dielectric) and
`direct + attenuation × recursion`. -/
def tracePathtrace (env : Env) (scene : Scene) : Ray → ℕ → Vec3
  | _, 0 => Vec3.zero
  | ray, depth + 1 =>
    match scene.intersect ray (1 / 1000) ⊤ with
    | some hit =>
      let is_specular :=
        match hit.material.mat_type with
        | MaterialType.Dielectric => true
        | MaterialType.Metal => hit.material.roughness < 1 / 20
        | MaterialType.Lambertian => false
      let direct_light :=
        if is_specular then Vec3.zero
        else
          scene.lights.foldl
            (fun acc light =>
              let ld : Vec3 × WithTop ℚ :=
                match light.light_type with
                | LightType.Directional => (-(light.direction.normalize), ⊤)
                | LightType.Point =>
                  let dir := light.position - hit.point
                  (dir.normalize, ((dir.length : ℚ) : WithTop ℚ))
              if (scene.intersect ⟨hit.point, ld.1⟩ (1 / 1000) ld.2).isNone then
                let cos_theta := max (Vec3.dot hit.normal ld.1) 0
                if hit.material.mat_type = MaterialType.Lambertian then
                  acc + (((hit.material.color * light.color).scale
                    light.intensity).scale cos_theta)
                else if hit.material.mat_type = MaterialType.Metal then
                  let view_dir := -(ray.direction.normalize)
                  let halfway := (ld.1 + view_dir).normalize
                  let spec := env.qpow (max (Vec3.dot hit.normal halfway) 0)
                    (2 / max hit.material.roughness (1 / 100))
                  acc + (((light.color * hit.material.color).scale
                    light.intensity).scale spec)
                else acc
              else acc)
            Vec3.zero
      match hit.material.mat_type with
      | MaterialType.Lambertian =>
        let scatter_direction := (hit.normal + env.ruv (depth + 1)).normalize
        direct_light + hit.material.color *
          tracePathtrace env scene ⟨hit.point, scatter_direction⟩ depth
      | MaterialType.Metal =>
        let reflected := Vec3.reflect (ray.direction.normalize) hit.normal
        let scatter_direction :=
          reflected + (env.ruv (depth + 1)).scale hit.material.roughness
        if Vec3.dot scatter_direction hit.normal ≤ 0 then direct_light
        else
          direct_light + hit.material.color *
            tracePathtrace env scene ⟨hit.point, scatter_direction⟩ depth
      | MaterialType.Dielectric =>
        let unit_direction := ray.direction.normalize
        let d := Vec3.dot unit_direction hit.normal
        let nr : Vec3 × ℚ :=
          if d < 0 then (hit.normal, 1 / hit.material.ior)
          else (-hit.normal, hit.material.ior)
        let cos_theta := min (Vec3.dot (-unit_direction) nr.1) 1
        let sin_theta := ratSqrt (1 - cos_theta * cos_theta)
        let cannot_refract := nr.2 * sin_theta > 1
        let scatter_direction :=
          if cannot_refract ∨ reflectance cos_theta nr.2 > env.rng (depth + 1) then
            Vec3.reflect unit_direction nr.1
          else refract unit_direction nr.1 nr.2
        direct_light + Vec3.one *
          tracePathtrace env scene ⟨hit.point, scatter_direction⟩ depth
    | none => skyColor ray

/-- `Raytracer::trace_path_recursive_raytracing` from `raytracer.rs`.
(The source's `if !path.points.is_empty()` in the depth-0 branch is
vacuously true after the preceding push and is therefore inlined.) -/
def recRT (env : Env) (scene : Scene) : Ray → ℕ → RayPath → Bool → RayPath
  | ray, 0, path, is_primary =>
    { path with
      points := path.points ++ [ray.at 2],
      segment_types := path.segment_types ++
        [if is_primary then RaySegmentType.Primary else RaySegmentType.Diffuse] }
  | ray, depth + 1, path, is_primary =>
    match scene.intersect ray (1 / 1000) ⊤ with
    | some hit =>
      let path1 := { path with points := path.points ++ [hit.point], hit := true }
      if hit.material.mat_type = MaterialType.Dielectric then
        let unit_direction := ray.direction.normalize
        let d := Vec3.dot unit_direction hit.normal
        let nr : Vec3 × ℚ :=
          if d < 0 then (hit.normal, 1 / hit.material.ior)
          else (-hit.normal, hit.material.ior)
        let cos_theta := min (Vec3.dot (-unit_direction) nr.1) 1
        let sin_theta := ratSqrt (1 - cos_theta * cos_theta)
        let cannot_refract := nr.2 * sin_theta > 1
        let reflectance_value := reflectance cos_theta nr.2
        let random_value := env.rng (depth + 1)
        let ds : Vec3 × RaySegmentType :=
          if cannot_refract ∨ reflectance_value > random_value then
            (Vec3.reflect unit_direction nr.1, RaySegmentType.Reflection)
          else (refract unit_direction nr.1 nr.2, RaySegmentType.Refraction)
        recRT env scene ⟨hit.point, ds.1⟩ depth
          { path1 with segment_types := path1.segment_types ++
              [if is_primary then RaySegmentType.Primary else ds.2] } false
      else if hit.material.reflectivity > 0 then
        recRT env scene ⟨hit.point, Vec3.reflect ray.direction hit.normal⟩ depth
          { path1 with segment_types := path1.segment_types ++
              [if is_primary then RaySegmentType.Primary else RaySegmentType.Reflection] }
          false
      else
        { path1 with segment_types := path1.segment_types ++
            [if is_primary then RaySegmentType.Primary else RaySegmentType.Diffuse] }
    | none =>
      { path with
        points := path.points ++ [ray.at 5],
        segment_types := path.segment_types ++
          [if is_primary then RaySegmentType.Primary else RaySegmentType.Diffuse] }

/-- `Raytracer::trace_path_recursive_pathtracing` from `raytracer.rs`.
Note: the source's Metal arm has NO absorption check — it always records a
Reflection segment and recurses, unlike `trace_pathtrace`. -/
def recPT (env : Env) (scene : Scene) : Ray → ℕ → RayPath → Bool → RayPath
  | ray, 0, path, is_primary =>
    { path with
      points := path.points ++ [ray.at 2],
      segment_types := path.segment_types ++
        [if is_primary then RaySegmentType.Primary else RaySegmentType.Diffuse] }
  | ray, depth + 1, path, is_primary =>
    match scene.intersect ray (1 / 1000) ⊤ with
    | some hit =>
      let path1 := { path with points := path.points ++ [hit.point], hit := true }
      let ds : Vec3 × RaySegmentType :=
        match hit.material.mat_type with
        | MaterialType.Lambertian =>
          (hit.normal + env.ruv (depth + 1), RaySegmentType.Diffuse)
        | MaterialType.Metal =>
          let reflected := Vec3.reflect (ray.direction.normalize) hit.normal
          (reflected + (env.ruv (depth + 1)).scale hit.material.roughness,
            RaySegmentType.Reflection)
        | MaterialType.Dielectric =>
          let unit_direction := ray.direction.normalize
          let d := Vec3.dot unit_direction hit.normal
          let nr : Vec3 × ℚ :=
            if d < 0 then (hit.normal, 1 / hit.material.ior)
            else (-hit.normal, hit.material.ior)
          let cos_theta := min (Vec3.dot (-unit_direction) nr.1) 1
          let sin_theta := ratSqrt (1 - cos_theta * cos_theta)
          let cannot_refract := nr.2 * sin_theta > 1
          let reflectance_value := reflectance cos_theta nr.2
          let random_value := env.rng (depth + 1)
          if cannot_refract ∨ reflectance_value > random_value then
            (Vec3.reflect unit_direction nr.1, RaySegmentType.Reflection)
          else (refract unit_direction nr.1 nr.2, RaySegmentType.Refraction)
      recPT env scene ⟨hit.point, ds.1⟩ depth
        { path1 with segment_types := path1.segment_types ++
            [if is_primary then RaySegmentType.Primary else ds.2] } false
    | none =>
      { path with
        points := path.points ++ [ray.at 5],
        segment_types := path.segment_types ++
          [if is_primary then RaySegmentType.Primary else RaySegmentType.Diffuse] }

/-- The Dielectric reflect-or-refract selection written identically (up to
let-naming) in `trace_ray`, `trace_pathtrace` and both path recorders:
side-dependent refraction ratio, critical angle, Schlick reflectance
against the random draw of depth `di`. -/
def dielectricScatter (env : Env) (di : ℕ) (ray : Ray) (hit : HitRecord) :
    Vec3 × RaySegmentType :=
  let unit_direction := ray.direction.normalize
  let d := Vec3.dot unit_direction hit.normal
  let nr : Vec3 × ℚ :=
    if d < 0 then (hit.normal, 1 / hit.material.ior)
    else (-hit.normal, hit.material.ior)
  let cos_theta := min (Vec3.dot (-unit_direction) nr.1) 1
  let sin_theta := ratSqrt (1 - cos_theta * cos_theta)
  let cannot_refract := nr.2 * sin_theta > 1
  if cannot_refract ∨ reflectance cos_theta nr.2 > env.rng di then
    (Vec3.reflect unit_direction nr.1, RaySegmentType.Reflection)
  else (refract unit_direction nr.1 nr.2, RaySegmentType.Refraction)

/-- The scatter direction and segment tag selected by the path-tracing
recorder at a hit (its `match hit.material.mat_type` block). -/
def ptScatter (env : Env) (di : ℕ) (ray : Ray) (hit : HitRecord) :
    Vec3 × RaySegmentType :=
  match hit.material.mat_type with
  | MaterialType.Lambertian =>
    (hit.normal + env.ruv di, RaySegmentType.Diffuse)
  | MaterialType.Metal =>
    (Vec3.reflect (ray.direction.normalize) hit.normal +
      (env.ruv di).scale hit.material.roughness, RaySegmentType.Reflection)
  | MaterialType.Dielectric => dielectricScatter env di ray hit

/-- `Raytracer::trace_paths` from `raytracer.rs`: `count` primary rays at
random image coordinates (`uv k` are the two `rng.gen()` draws of ray
`k`), each walked by the recorder matching the active mode. -/
def tracePaths (rt : Raytracer) (env : Env) (scene : Scene) (cam : Camera)
    (tanHalfFov : ℚ → ℚ) (uv : ℕ → ℚ × ℚ) (count : ℕ) : List RayPath :=
  (List.range count).map fun k =>
    let ray := cam.getRay tanHalfFov (uv k).1 (uv k).2
    let path : RayPath := ⟨[ray.origin], [], false⟩
    match rt.mode with
    | RenderMode.Raytracing => recRT env scene ray rt.max_bounces path true
    | RenderMode.Pathtracing => recPT env scene ray rt.max_bounces path true

/-- The loop body of `Raytracer::render` for one pixel: average of the
per-sample radiance, each sample jittered by the two sequential
`rng.gen()` draws of global sample index `(y·width + x)·spp + s`. -/
def pixelColor (rt : Raytracer) (env : Env) (scene : Scene) (cam : Camera)
    (tanHalfFov : ℚ → ℚ) (jit : ℕ → ℚ) (x y : ℕ) : Vec3 :=
  ((List.range rt.samples_per_pixel).foldl
    (fun acc s =>
      let k := (y * rt.width + x) * rt.samples_per_pixel + s
      let u := ((x : ℚ) + jit (2 * k)) / (rt.width : ℚ)
      let v := 1 - ((y : ℚ) + jit (2 * k + 1)) / (rt.height : ℚ)
      let ray := cam.getRay tanHalfFov u v
      acc +
        match rt.mode with
        | RenderMode.Raytracing => traceRay env scene ray rt.max_bounces
        | RenderMode.Pathtracing => tracePathtrace env scene ray rt.max_bounces)
    Vec3.zero).scale (1 / (rt.samples_per_pixel : ℚ))

/-- Clamp to `[0,1]`, scale to 8-bit and truncate (`as u8` on a value in
`[0,255]` is the floor). -/
def toByte (q : ℚ) : ℕ := ((min (max q 0) 1) * 255).floor.toNat

/-- `Raytracer::render` from `raytracer.rs`.  The source writes bytes into
a preallocated buffer at index `(y·width + x)·4`, iterating `y` outer and
`x` inner; this produces exactly the row-major concatenation below. -/
def render (rt : Raytracer) (env : Env) (scene : Scene) (cam : Camera)
    (tanHalfFov : ℚ → ℚ) (jit : ℕ → ℚ) : List ℕ :=
  (List.range rt.height).flatMap fun y =>
    (List.range rt.width).flatMap fun x =>
      let color := pixelColor rt env scene cam tanHalfFov jit x y
      [toByte color.x, toByte color.y, toByte color.z, 255]

/-! ### Retagging material kinds (used for claim C10) -/

/-- Replace a material's kind tag by `g`, keeping every other field. -/
def retagMaterial (g : MaterialType → MaterialType) (m : Material) : Material :=
  { m with mat_type := g m.mat_type }

/-- Retag the material carried by a hit record. -/
def retagHit (g : MaterialType → MaterialType) (h : HitRecord) : HitRecord :=
  { h with material := retagMaterial g h.material }

/-- Retag every material of a scene, leaving all geometry and lights
unchanged. -/
def retagScene (g : MaterialType → MaterialType) (s : Scene) : Scene :=
  ⟨s.spheres.map (fun sp => { sp with material := retagMaterial g sp.material }),
    s.cubes.map (fun cb => { cb with material := retagMaterial g cb.material }),
    s.planes.map (fun pl => { pl with material := retagMaterial g pl.material }),
    s.lights⟩

/-- The swap of the Lambertian and Metal tags, fixing Dielectric. -/
def swapLM : MaterialType → MaterialType
  | MaterialType.Lambertian => MaterialType.Metal
  | MaterialType.Metal => MaterialType.Lambertian
  | MaterialType.Dielectric => MaterialType.Dielectric

/-- The next-event-estimation direct-lighting term computed by
`trace_pathtrace` at a hit (its `direct_light` variable), written
verbatim. -/
def directLight (env : Env) (scene : Scene) (ray : Ray) (hit : HitRecord) : Vec3 :=
  let is_specular :=
    match hit.material.mat_type with
    | MaterialType.Dielectric => true
    | MaterialType.Metal => hit.material.roughness < 1 / 20
    | MaterialType.Lambertian => false
  if is_specular then Vec3.zero
  else
    scene.lights.foldl
      (fun acc light =>
        let ld : Vec3 × WithTop ℚ :=
          match light.light_type with
          | LightType.Directional => (-(light.direction.normalize), ⊤)
          | LightType.Point =>
            let dir := light.position - hit.point
            (dir.normalize, ((dir.length : ℚ) : WithTop ℚ))
        if (scene.intersect ⟨hit.point, ld.1⟩ (1 / 1000) ld.2).isNone then
          let cos_theta := max (Vec3.dot hit.normal ld.1) 0
          if hit.material.mat_type = MaterialType.Lambertian then
            acc + (((hit.material.color * light.color).scale
              light.intensity).scale cos_theta)
          else if hit.material.mat_type = MaterialType.Metal then
            let view_dir := -(ray.direction.normalize)
            let halfway := (ld.1 + view_dir).normalize
            let spec := env.qpow (max (Vec3.dot hit.normal halfway) 0)
              (2 / max hit.material.roughness (1 / 100))
            acc + (((light.color * hit.material.color).scale
              light.intensity).scale spec)
          else acc
        else acc)
      Vec3.zero

/-! ### Further concrete fixtures -/

/-- The empty scene. -/
def emptyScene : Scene := ⟨[], [], [], []⟩

/-- A 1×1, one-sample, one-bounce Whitted configuration. -/
def rt0 : Raytracer := ⟨1, 1, 1, 1, RenderMode.Raytracing⟩

/-- A camera at the origin with identity rotation, `fov = 90` and square
aspect ratio. -/
def cam0 : Camera := ⟨⟨⟨0, 0, 0⟩, ⟨1, 0, 0, 0⟩, ⟨1, 1, 1⟩⟩, 90, 1⟩

/-- The path `trace_paths` records for `cam0`'s ray at `(u, v) = (0, 0)` in
the empty scene with one bounce. -/
def p8 : RayPath := ⟨[⟨0, 0, 0⟩, ⟨-5, -5, -5⟩], [RaySegmentType.Primary], false⟩

/-- The hit `axisRay` produces on `metalSphere`. -/
def metalHit : HitRecord := ⟨4, ⟨0, 0, 1⟩, ⟨0, 0, 1⟩, metalMat⟩

/-- The hit the continued recorder ray produces on `metalSphere` from
`(0, 0, 1)` along `-Z`. -/
def metalHit2 : HitRecord := ⟨2, ⟨0, 0, -1⟩, ⟨0, 0, -1⟩, metalMat⟩

/-! ### Helper lemmas -/

theorem ratSqrt_zero : ratSqrt 0 = 0 := by
  simp [ratSqrt]

theorem ratSqrt_one : ratSqrt 1 = 1 := by
  simp [ratSqrt]

theorem ratSqrt_three : ratSqrt 3 = 0 := by
  simp [ratSqrt]
  norm_num [Nat.sqrt, Nat.sqrt.iter]

theorem ratSqrt_four : ratSqrt 4 = 2 := by
  simp [ratSqrt]
  norm_num [Nat.sqrt, Nat.sqrt.iter]

theorem wtopLtSub (c a b : ℚ) :
    ((c : WithTop ℚ) < (a : WithTop ℚ) - (b : WithTop ℚ)) ↔ c < a - b := by
  rw [← WithTop.LinearOrderedAddCommGroup.coe_sub, WithTop.coe_lt_coe]

theorem wtopLtAdd (c a b : ℚ) :
    ((c : WithTop ℚ) < (a : WithTop ℚ) + (b : WithTop ℚ)) ↔ c < a + b := by
  rw [← WithTop.coe_add, WithTop.coe_lt_coe]

theorem wtopSubLt (c a b : ℚ) :
    ((a : WithTop ℚ) - (b : WithTop ℚ) < (c : WithTop ℚ)) ↔ a - b < c := by
  rw [← WithTop.LinearOrderedAddCommGroup.coe_sub, WithTop.coe_lt_coe]

theorem wtopAddLt (c a b : ℚ) :
    ((a : WithTop ℚ) + (b : WithTop ℚ) < (c : WithTop ℚ)) ↔ a + b < c := by
  rw [← WithTop.coe_add, WithTop.coe_lt_coe]

theorem Vec3.dot_self_nonneg (v : Vec3) : 0 ≤ Vec3.dot v v := by
  unfold Vec3.dot
  nlinarith [mul_self_nonneg v.x, mul_self_nonneg v.y, mul_self_nonneg v.z]

theorem Vec3.dot_self_eq_zero {v : Vec3} (h : Vec3.dot v v = 0) : v = Vec3.zero := by
  unfold Vec3.dot at h
  have hx : v.x = 0 := by nlinarith [sq_nonneg v.x, sq_nonneg v.y, sq_nonneg v.z]
  have hy : v.y = 0 := by nlinarith [sq_nonneg v.x, sq_nonneg v.y, sq_nonneg v.z]
  have hz : v.z = 0 := by nlinarith [sq_nonneg v.x, sq_nonneg v.y, sq_nonneg v.z]
  cases v
  simp_all [Vec3.zero]

theorem Vec3.length_squared_ne_zero {v : Vec3} (h : v ≠ Vec3.zero) :
    v.length_squared ≠ 0 := by
  intro hc
  exact h (Vec3.dot_self_eq_zero hc)

/-! ### Sphere intersection characterization -/

/-- The two candidate roots of the ray-sphere quadratic as computed by
`Sphere.intersect`, smaller one first. -/
def Sphere.roots (s : Sphere) (ray : Ray) : ℚ × ℚ :=
  let oc := ray.origin - s.center
  let a := ray.direction.length_squared
  let half_b := Vec3.dot oc ray.direction
  let c := oc.length_squared - s.radius * s.radius
  let discriminant := half_b * half_b - a * c
  ((-half_b - ratSqrt discriminant) / a, (-half_b + ratSqrt discriminant) / a)

/-- The discriminant of the ray-sphere quadratic as computed by
`Sphere.intersect`. -/
def Sphere.disc (s : Sphere) (ray : Ray) : ℚ :=
  let oc := ray.origin - s.center
  Vec3.dot oc ray.direction * Vec3.dot oc ray.direction -
    ray.direction.length_squared * (oc.length_squared - s.radius * s.radius)

theorem Sphere.intersect_eq (s : Sphere) (ray : Ray) (t_min : ℚ) (t_max : WithTop ℚ) :
    s.intersect ray t_min t_max =
      if s.disc ray < 0 then none
      else if (s.roots ray).1 < t_min ∨ t_max < (((s.roots ray).1 : ℚ) : WithTop ℚ) then
        if (s.roots ray).2 < t_min ∨ t_max < (((s.roots ray).2 : ℚ) : WithTop ℚ) then none
        else some ⟨(s.roots ray).2, ray.at (s.roots ray).2,
          (ray.at (s.roots ray).2 - s.center).scale (1 / s.radius), s.material⟩
      else some ⟨(s.roots ray).1, ray.at (s.roots ray).1,
        (ray.at (s.roots ray).1 - s.center).scale (1 / s.radius), s.material⟩ := by
  rfl

theorem quadAux (a hb c sq t : ℚ) (hsq : sq * sq = hb * hb - a * c) (ha : a ≠ 0)
    (ht : t = (-hb - sq) / a ∨ t = (-hb + sq) / a) :
    a * (t * t) + 2 * hb * t + c = 0 := by
  rcases ht with ht | ht <;> subst ht <;> field_simp <;> linear_combination a ^ 2 * hsq

theorem divLeAux (hb sq a : ℚ) (hs : 0 ≤ sq) (ha : 0 ≤ a) :
    (-hb - sq) / a ≤ (-hb + sq) / a := by
  rcases eq_or_lt_of_le ha with ha0 | ha0
  · simp [← ha0]
  · exact (div_le_div_iff_of_pos_right ha0).mpr (by linarith)

theorem Sphere.roots_def (s : Sphere) (ray : Ray) :
    s.roots ray =
      ((-(Vec3.dot (ray.origin - s.center) ray.direction) - ratSqrt (s.disc ray)) /
          Vec3.dot ray.direction ray.direction,
        (-(Vec3.dot (ray.origin - s.center) ray.direction) + ratSqrt (s.disc ray)) /
          Vec3.dot ray.direction ray.direction) := rfl

theorem Sphere.roots_le (s : Sphere) (ray : Ray) : (s.roots ray).1 ≤ (s.roots ray).2 := by
  rw [Sphere.roots_def]
  exact divLeAux _ _ _ (ratSqrt_nonneg _) (Vec3.dot_self_nonneg _)

/-- Any accepted sphere root lies in the requested interval. -/
theorem Sphere.intersect_t_mem {s : Sphere} {ray : Ray} {t_min : ℚ} {t_max : WithTop ℚ}
    {h : HitRecord} (hh : s.intersect ray t_min t_max = some h) :
    t_min ≤ h.t ∧ (h.t : WithTop ℚ) ≤ t_max := by
  rw [Sphere.intersect_eq] at hh
  split at hh
  · exact absurd hh (by simp)
  · split at hh
    · split at hh
      · exact absurd hh (by simp)
      · rename_i hr2
        push_neg at hr2
        cases hh
        exact ⟨hr2.1, hr2.2⟩
    · rename_i hr1
      push_neg at hr1
      cases hh
      exact ⟨hr1.1, hr1.2⟩

/-- The returned sphere hit's `t` is one of the two quadratic roots, its
point is `ray.at t`, and its normal and material are as constructed. -/
theorem Sphere.intersect_shape {s : Sphere} {ray : Ray} {t_min : ℚ} {t_max : WithTop ℚ}
    {h : HitRecord} (hh : s.intersect ray t_min t_max = some h) :
    (h.t = (s.roots ray).1 ∨ h.t = (s.roots ray).2) ∧ h.point = ray.at h.t ∧
      h.normal = (h.point - s.center).scale (1 / s.radius) ∧ h.material = s.material := by
  rw [Sphere.intersect_eq] at hh
  split at hh
  · exact absurd hh (by simp)
  · split at hh
    · split at hh
      · exact absurd hh (by simp)
      · cases hh
        exact ⟨Or.inr rfl, rfl, rfl, rfl⟩
    · cases hh
      exact ⟨Or.inl rfl, rfl, rfl, rfl⟩

/-- When the embedded square root is exact on the discriminant and the ray
direction is nonzero, each root solves the ray-sphere quadratic, hence the
hit point lies at distance `radius` from the center. -/
theorem Sphere.disc_def (s : Sphere) (ray : Ray) :
    s.disc ray =
      Vec3.dot (ray.origin - s.center) ray.direction *
          Vec3.dot (ray.origin - s.center) ray.direction -
        Vec3.dot ray.direction ray.direction *
          (Vec3.dot (ray.origin - s.center) (ray.origin - s.center) -
            s.radius * s.radius) := rfl

theorem Sphere.root_on_sphere {s : Sphere} {ray : Ray} {t : ℚ}
    (hsq : ratSqrt (s.disc ray) * ratSqrt (s.disc ray) = s.disc ray)
    (hd : ray.direction ≠ Vec3.zero)
    (ht : t = (s.roots ray).1 ∨ t = (s.roots ray).2) :
    Vec3.dot (ray.at t - s.center) (ray.at t - s.center) = s.radius * s.radius := by
  have ha : Vec3.dot ray.direction ray.direction ≠ 0 := Vec3.length_squared_ne_zero hd
  rw [Sphere.roots_def] at ht
  rw [Sphere.disc_def] at hsq
  have hq := quadAux (Vec3.dot ray.direction ray.direction)
    (Vec3.dot (ray.origin - s.center) ray.direction)
    (Vec3.dot (ray.origin - s.center) (ray.origin - s.center) - s.radius * s.radius)
    (ratSqrt (s.disc ray)) t hsq ha ht
  simp only [Vec3.dot, Vec3.sub_def, Vec3.add_def, Vec3.scale, Ray.at] at hq ⊢
  linear_combination hq

/-! ### Plane intersection characterization -/

theorem plane_intersect_props {p : Plane} {ray : Ray} {t_min : ℚ} {t_max : WithTop ℚ}
    {h : HitRecord} (hh : p.intersect ray t_min t_max = some h) :
    t_min ≤ h.t ∧ (h.t : WithTop ℚ) ≤ t_max ∧ h.normal = p.normal ∧
      h.point = ray.at h.t ∧ h.material = p.material := by
  simp only [Plane.intersect] at hh
  split at hh
  · split at hh
    · rename_i hrange
      cases hh
      exact ⟨hrange.1, hrange.2, rfl, rfl, rfl⟩
    · exact absurd hh (by simp)
  · exact absurd hh (by simp)

/-! ### Cube (slab method) characterization -/

theorem slabAxis_parallel_outside {minVal maxVal origin direction : ℚ} {i : Fin 3}
    (st : SlabState) (hpar : |direction| < 1 / 1000000)
    (hout : origin < minVal ∨ origin > maxVal) :
    slabAxis minVal maxVal origin direction i st = none := by
  unfold slabAxis
  rw [if_pos hpar, if_pos hout]

theorem slabAxis_some {minVal maxVal origin direction : ℚ} {i : Fin 3}
    {st st2 : SlabState} (hh : slabAxis minVal maxVal origin direction i st = some st2)
    (hb : (st.t_near : WithTop ℚ) ≤ st.t_far) :
    (st2.t_near : WithTop ℚ) ≤ st2.t_far ∧ st.t_near ≤ st2.t_near ∧
      st2.t_far ≤ st.t_far ∧
      (st2.normal = st.normal ∨ st2.normal = Vec3.unitAxis i 1 ∨
        st2.normal = Vec3.unitAxis i (-1)) := by
  simp only [slabAxis] at hh
  by_cases hpar : |direction| < 1 / 1000000
  · rw [if_pos hpar] at hh
    by_cases hout : origin < minVal ∨ origin > maxVal
    · rw [if_pos hout] at hh
      exact absurd hh (by simp)
    · rw [if_neg hout] at hh
      cases hh
      exact ⟨hb, le_rfl, le_rfl, Or.inl rfl⟩
  · rw [if_neg hpar] at hh
    set e : ℚ × ℚ × ℚ :=
      if (minVal - origin) / direction > (maxVal - origin) / direction then
        ((maxVal - origin) / direction, (minVal - origin) / direction, 1)
      else ((minVal - origin) / direction, (maxVal - origin) / direction, -1) with he
    set st1 : SlabState :=
      if e.1 > st.t_near then ⟨e.1, st.t_far, Vec3.unitAxis i e.2.2⟩ else st with hst1
    set stB : SlabState :=
      if (e.2.1 : WithTop ℚ) < st1.t_far then ⟨st1.t_near, (e.2.1 : WithTop ℚ), st1.normal⟩
      else st1 with hstB
    by_cases hchk : (stB.t_near : WithTop ℚ) > stB.t_far
    · rw [if_pos hchk] at hh
      exact absurd hh (by simp)
    · rw [if_neg hchk] at hh
      have heq := Option.some.inj hh
      subst heq
      push_neg at hchk
      have hn1 : stB.t_near = st1.t_near := by
        rw [hstB]
        split <;> rfl
      have hf1 : st1.t_far = st.t_far := by
        rw [hst1]
        split <;> rfl
      have hnm : stB.normal = st1.normal := by
        rw [hstB]
        split <;> rfl
      refine ⟨hchk, ?_, ?_, ?_⟩
      · rw [hn1, hst1]
        split
        · exact le_of_lt (by assumption)
        · exact le_rfl
      · rw [hstB]
        split
        · rename_i hlt
          exact (le_of_lt hlt).trans hf1.le
        · exact hf1.le
      · rw [hnm, hst1]
        split
        · rw [he]
          split
          · exact Or.inr (Or.inl rfl)
          · exact Or.inr (Or.inr rfl)
        · exact Or.inl rfl

theorem Ray.at_nth (r : Ray) (t : ℚ) (i : Fin 3) :
    (r.at t).nth i = r.origin.nth i + r.direction.nth i * t := by
  fin_cases i <;> rfl

theorem slabAxis_face {minVal maxVal origin direction : ℚ} {i : Fin 3}
    {st st2 : SlabState} (hh : slabAxis minVal maxVal origin direction i st = some st2) :
    (st2.normal = st.normal ∧ st2.t_near = st.t_near) ∨
      (st.t_near < st2.t_near ∧
        ((st2.normal = Vec3.unitAxis i 1 ∧ origin + direction * st2.t_near = maxVal) ∨
          (st2.normal = Vec3.unitAxis i (-1) ∧ origin + direction * st2.t_near = minVal))) := by
  simp only [slabAxis] at hh
  by_cases hpar : |direction| < 1 / 1000000
  · rw [if_pos hpar] at hh
    by_cases hout : origin < minVal ∨ origin > maxVal
    · rw [if_pos hout] at hh
      exact absurd hh (by simp)
    · rw [if_neg hout] at hh
      cases hh
      exact Or.inl ⟨rfl, rfl⟩
  · rw [if_neg hpar] at hh
    have hdir : direction ≠ 0 := by
      intro h0
      rw [h0] at hpar
      exact hpar (by norm_num)
    set e : ℚ × ℚ × ℚ :=
      if (minVal - origin) / direction > (maxVal - origin) / direction then
        ((maxVal - origin) / direction, (minVal - origin) / direction, 1)
      else ((minVal - origin) / direction, (maxVal - origin) / direction, -1) with he
    set st1 : SlabState :=
      if e.1 > st.t_near then ⟨e.1, st.t_far, Vec3.unitAxis i e.2.2⟩ else st with hst1
    set stB : SlabState :=
      if (e.2.1 : WithTop ℚ) < st1.t_far then ⟨st1.t_near, (e.2.1 : WithTop ℚ), st1.normal⟩
      else st1 with hstB
    by_cases hchk : (stB.t_near : WithTop ℚ) > stB.t_far
    · rw [if_pos hchk] at hh
      exact absurd hh (by simp)
    · rw [if_neg hchk] at hh
      have heq := Option.some.inj hh
      subst heq
      have hn1 : stB.t_near = st1.t_near := by
        rw [hstB]
        split <;> rfl
      have hnm : stB.normal = st1.normal := by
        rw [hstB]
        split <;> rfl
      rw [hn1, hnm, hst1]
      by_cases htight : e.1 > st.t_near
      · rw [if_pos htight]
        refine Or.inr ⟨htight, ?_⟩
        rw [he]
        by_cases hcmp : (minVal - origin) / direction > (maxVal - origin) / direction
        · rw [if_pos hcmp]
          refine Or.inl ⟨rfl, ?_⟩
          field_simp
        · rw [if_neg hcmp]
          refine Or.inr ⟨rfl, ?_⟩
          field_simp
      · rw [if_neg htight]
        exact Or.inl ⟨rfl, rfl⟩

theorem cubeFaceStep {cb : Cube} {ray : Ray} {t_min : ℚ} {i : Fin 3} {st st2 : SlabState}
    (hh : slabAxis (cb.min.nth i) (cb.max.nth i) (ray.origin.nth i) (ray.direction.nth i)
      i st = some st2)
    (hq : CubeNormalInv cb ray t_min st) : CubeNormalInv cb ray t_min st2 := by
  rcases slabAxis_face hh with ⟨hn, ht⟩ | ⟨ht, hface⟩
  · simp only [CubeNormalInv] at hq ⊢
    rw [hn, ht]
    exact hq
  · have htmin : t_min ≤ st.t_near := by
      simp only [CubeNormalInv] at hq
      rcases hq with ⟨_, h0⟩ | ⟨j, sg, _, _, hlt⟩
      · exact h0.ge
      · exact hlt.le
    simp only [CubeNormalInv]
    right
    rcases hface with ⟨hn, hf⟩ | ⟨hn, hf⟩
    · exact ⟨i, 1, Or.inl ⟨rfl, hf⟩, hn, lt_of_le_of_lt htmin ht⟩
    · exact ⟨i, -1, Or.inr ⟨rfl, hf⟩, hn, lt_of_le_of_lt htmin ht⟩

theorem cube_intersect_props {cb : Cube} {ray : Ray} {t_min : ℚ} {t_max : WithTop ℚ}
    {h : HitRecord} (hb : (t_min : WithTop ℚ) ≤ t_max)
    (hh : cb.intersect ray t_min t_max = some h) :
    t_min ≤ h.t ∧ (h.t : WithTop ℚ) ≤ t_max ∧
      ((h.normal = Vec3.zero ∧ h.t = t_min) ∨
        ∃ (i : Fin 3) (sg : ℚ),
          ((sg = 1 ∧ h.point.nth i = cb.max.nth i) ∨
            (sg = -1 ∧ h.point.nth i = cb.min.nth i)) ∧
          h.normal = Vec3.unitAxis i sg ∧ t_min < h.t) ∧
      h.point = ray.at h.t ∧ h.material = cb.material := by
  simp only [Cube.intersect] at hh
  rcases h0 : slabAxis (cb.min.nth 0) (cb.max.nth 0) (ray.origin.nth 0) (ray.direction.nth 0)
      0 ⟨t_min, t_max, Vec3.zero⟩ with _ | st1
  · rw [h0] at hh
    exact absurd hh (by simp)
  rw [h0] at hh
  simp only [Option.some_bind] at hh
  rcases h1 : slabAxis (cb.min.nth 1) (cb.max.nth 1) (ray.origin.nth 1) (ray.direction.nth 1)
      1 st1 with _ | st2
  · rw [h1] at hh
    exact absurd hh (by simp)
  rw [h1] at hh
  simp only [Option.some_bind] at hh
  rcases h2 : slabAxis (cb.min.nth 2) (cb.max.nth 2) (ray.origin.nth 2) (ray.direction.nth 2)
      2 st2 with _ | st3
  · rw [h2] at hh
    exact absurd hh (by simp)
  rw [h2] at hh
  simp only [Option.map_some'] at hh
  obtain ⟨b1, n1, f1, -⟩ := slabAxis_some h0 hb
  obtain ⟨b2, n2, f2, -⟩ := slabAxis_some h1 b1
  obtain ⟨b3, n3, f3, -⟩ := slabAxis_some h2 b2
  cases hh
  refine ⟨(n1.trans n2).trans n3, b3.trans ((f3.trans f2).trans f1), ?_, rfl, rfl⟩
  have base : CubeNormalInv cb ray t_min ⟨t_min, t_max, Vec3.zero⟩ := by
    simp [CubeNormalInv]
  have q3 : CubeNormalInv cb ray t_min st3 :=
    cubeFaceStep h2 (cubeFaceStep h1 (cubeFaceStep h0 base))
  simp only [CubeNormalInv] at q3
  rcases q3 with ⟨hz, hteq⟩ | ⟨j, sg, hface, hnorm, hlt⟩
  · exact Or.inl ⟨hz, hteq⟩
  · refine Or.inr ⟨j, sg, ?_, hnorm, hlt⟩
    rcases hface with ⟨hs, hf⟩ | ⟨hs, hf⟩
    · exact Or.inl ⟨hs, by rw [Ray.at_nth]; exact hf⟩
    · exact Or.inr ⟨hs, by rw [Ray.at_nth]; exact hf⟩

theorem Vec3.dot_scale_scale (v : Vec3) (k : ℚ) :
    Vec3.dot (v.scale k) (v.scale k) = k * k * Vec3.dot v v := by
  simp only [Vec3.scale, Vec3.dot]
  ring

/-- Evaluation: `axisRay` against `unitSphere`. -/
theorem sphere_axis_eval : unitSphere.intersect axisRay (1 / 1000) ⊤ = some axisHit := by
  norm_num [Sphere.intersect, unitSphere, axisRay, axisHit, mat0, Vec3.length_squared,
    Vec3.dot, Vec3.sub_def, ratSqrt_one, Ray.at, Vec3.add_def, Vec3.scale,
    WithTop.coe_lt_top]

/-- Evaluation: `axisRay` against `unitCube`. -/
theorem cube_axis_eval : unitCube.intersect axisRay (1 / 1000) ⊤ = some axisHit := by
  norm_num [Cube.intersect, slabAxis, unitCube, axisRay, axisHit, mat0, Vec3.nth,
    Vec3.unitAxis, Ray.at, Vec3.add_def, Vec3.scale, Vec3.zero, -WithTop.coe_ofNat,
    WithTop.coe_lt_top, WithTop.coe_le_coe, WithTop.coe_lt_coe]

/-- Evaluation: a ray starting inside `unitCube` is accepted at `t = t_min`
with the zero normal. -/
theorem cube_inside_eval :
    unitCube.intersect insideRay (1 / 1000) ⊤ =
      some ⟨1 / 1000, ⟨0, 0, 1 / 1000⟩, ⟨0, 0, 0⟩, mat0⟩ := by
  norm_num [Cube.intersect, slabAxis, unitCube, insideRay, mat0, Vec3.nth,
    Vec3.unitAxis, Ray.at, Vec3.add_def, Vec3.scale, Vec3.zero, -WithTop.coe_ofNat,
    WithTop.coe_lt_top, WithTop.coe_le_coe, WithTop.coe_lt_coe]

/-! ### Claim C2 -/

/-- C2, counterexample: `Cube::intersect` on a ray that starts inside the
box returns a hit whose normal is the zero vector — not a unit-length
axis-aligned vector — because no axis ever updates `t_near`.  The claim's
invariant "normals are unit length" fails on this hit. -/
theorem claim2_counterexample :
    (unitCube.intersect insideRay (1 / 1000) ⊤).map
        (fun h => Vec3.dot h.normal h.normal) = some 0 ∧ (0 : ℚ) ≠ 1 := by
  constructor
  · rw [cube_inside_eval]
    norm_num [Vec3.dot]
  · norm_num

/-- C2, amended: any hit returned by `Sphere::intersect`, `Plane::intersect`
or `Cube::intersect` has `t_min ≤ t ≤ t_max` (for the cube this needs
`t_min ≤ t_max`); the sphere normal is the radial vector
`(point − center)/radius` and is unit length whenever the square root of
the discriminant is exact, the direction is nonzero and the radius is
nonzero; the plane normal is the plane's stored normal; the cube normal
carries the sign of the entered face: either no axis ever tightened the
parameter window (then `t = t_min` and the normal is the zero vector — a
ray starting inside the box), or `t > t_min` and the normal is the
outward axis unit vector of a face whose plane contains the hit point —
`+1` on the corresponding max face, `-1` on the corresponding min face. -/
theorem claim2_hit_invariants :
    (∀ (s : Sphere) (ray : Ray) (t_min : ℚ) (t_max : WithTop ℚ) (h : HitRecord),
        s.intersect ray t_min t_max = some h →
          t_min ≤ h.t ∧ (h.t : WithTop ℚ) ≤ t_max ∧
            h.normal = (h.point - s.center).scale (1 / s.radius) ∧
            (ratSqrt (s.disc ray) * ratSqrt (s.disc ray) = s.disc ray →
              ray.direction ≠ Vec3.zero → s.radius ≠ 0 →
              Vec3.dot h.normal h.normal = 1)) ∧
    (∀ (p : Plane) (ray : Ray) (t_min : ℚ) (t_max : WithTop ℚ) (h : HitRecord),
        p.intersect ray t_min t_max = some h →
          t_min ≤ h.t ∧ (h.t : WithTop ℚ) ≤ t_max ∧ h.normal = p.normal) ∧
    (∀ (cb : Cube) (ray : Ray) (t_min : ℚ) (t_max : WithTop ℚ) (h : HitRecord),
        (t_min : WithTop ℚ) ≤ t_max → cb.intersect ray t_min t_max = some h →
          t_min ≤ h.t ∧ (h.t : WithTop ℚ) ≤ t_max ∧
            ((h.normal = Vec3.zero ∧ h.t = t_min) ∨
              ∃ (i : Fin 3) (sg : ℚ),
                ((sg = 1 ∧ h.point.nth i = cb.max.nth i) ∨
                  (sg = -1 ∧ h.point.nth i = cb.min.nth i)) ∧
                h.normal = Vec3.unitAxis i sg ∧ t_min < h.t)) := by
  refine ⟨?_, ?_, ?_⟩
  · intro s ray t_min t_max h hh
    obtain ⟨ht1, ht2⟩ := Sphere.intersect_t_mem hh
    obtain ⟨hroot, hpt, hnorm, hmat⟩ := Sphere.intersect_shape hh
    refine ⟨ht1, ht2, hnorm, ?_⟩
    intro hsq hd hr
    have hdist := Sphere.root_on_sphere hsq hd hroot
    rw [← hpt] at hdist
    rw [hnorm, Vec3.dot_scale_scale, hdist]
    field_simp
  · intro p ray t_min t_max h hh
    obtain ⟨h1, h2, h3, _, _⟩ := plane_intersect_props hh
    exact ⟨h1, h2, h3⟩
  · intro cb ray t_min t_max h hb hh
    obtain ⟨h1, h2, h3, _, _⟩ := cube_intersect_props hb hh
    exact ⟨h1, h2, h3⟩

/-- C2, witness: the amended invariants instantiated on `axisRay` against
`unitSphere` and against `unitCube` (all hypotheses discharged on
concrete data; the cube hit lies on the max face of axis 2 with outward
normal `+Z`). -/
theorem claim2_witness :
    ((1 / 1000 : ℚ) ≤ axisHit.t ∧ ((axisHit.t : ℚ) : WithTop ℚ) ≤ ⊤ ∧
      Vec3.dot axisHit.normal axisHit.normal = 1) ∧
    ((axisHit.normal = Vec3.zero ∧ axisHit.t = 1 / 1000) ∨
      ∃ (i : Fin 3) (sg : ℚ),
        ((sg = 1 ∧ axisHit.point.nth i = unitCube.max.nth i) ∨
          (sg = -1 ∧ axisHit.point.nth i = unitCube.min.nth i)) ∧
        axisHit.normal = Vec3.unitAxis i sg ∧ (1 / 1000 : ℚ) < axisHit.t) := by
  obtain ⟨h1, h2, _, h4⟩ :=
    claim2_hit_invariants.1 unitSphere axisRay (1 / 1000) ⊤ axisHit sphere_axis_eval
  obtain ⟨-, -, hcube⟩ :=
    claim2_hit_invariants.2.2 unitCube axisRay (1 / 1000) ⊤ axisHit le_top cube_axis_eval
  refine ⟨⟨h1, h2, h4 ?_ ?_ ?_⟩, hcube⟩
  · have : unitSphere.disc axisRay = 1 := by
      norm_num [Sphere.disc_def, unitSphere, axisRay, mat0, Vec3.dot, Vec3.sub_def,
        Vec3.length_squared]
    rw [this, ratSqrt_one]
    norm_num
  · intro hc
    have := congrArg Vec3.z hc
    norm_num [axisRay, Vec3.zero] at this
  · norm_num [unitSphere]

/-! ### Claim C5 -/

/-- C5: `Sphere::intersect` solves the quadratic: it returns nothing when
the discriminant is negative; any returned hit carries the smaller root
when that root lies in `[t_min, t_max]`, otherwise the larger root (which
then must lie in the interval, the smaller not); it returns nothing when
neither root is in the interval; and, when the square root of the
discriminant is exact and the direction is nonzero, the returned hit point
lies at distance `radius` from the center with normal
`(point − center)/radius`. -/
theorem claim5_sphere_quadratic (s : Sphere) (ray : Ray) (t_min : ℚ) (t_max : WithTop ℚ) :
    (s.disc ray < 0 → s.intersect ray t_min t_max = none) ∧
    (∀ h : HitRecord, s.intersect ray t_min t_max = some h →
      (¬((s.roots ray).1 < t_min ∨ t_max < (((s.roots ray).1 : ℚ) : WithTop ℚ)) ∧
          h.t = (s.roots ray).1) ∨
      (((s.roots ray).1 < t_min ∨ t_max < (((s.roots ray).1 : ℚ) : WithTop ℚ)) ∧
        ¬((s.roots ray).2 < t_min ∨ t_max < (((s.roots ray).2 : ℚ) : WithTop ℚ)) ∧
          h.t = (s.roots ray).2)) ∧
    (((s.roots ray).1 < t_min ∨ t_max < (((s.roots ray).1 : ℚ) : WithTop ℚ)) →
      ((s.roots ray).2 < t_min ∨ t_max < (((s.roots ray).2 : ℚ) : WithTop ℚ)) →
      s.intersect ray t_min t_max = none) ∧
    (∀ h : HitRecord, s.intersect ray t_min t_max = some h →
      ratSqrt (s.disc ray) * ratSqrt (s.disc ray) = s.disc ray →
      ray.direction ≠ Vec3.zero →
        Vec3.dot (h.point - s.center) (h.point - s.center) = s.radius * s.radius ∧
        h.normal = (h.point - s.center).scale (1 / s.radius)) := by
  refine ⟨?_, ?_, ?_, ?_⟩
  · intro hneg
    rw [Sphere.intersect_eq, if_pos hneg]
  · intro h hh
    rw [Sphere.intersect_eq] at hh
    split at hh
    · exact absurd hh (by simp)
    · split at hh
      · split at hh
        · exact absurd hh (by simp)
        · cases hh
          exact Or.inr ⟨by assumption, by assumption, rfl⟩
      · cases hh
        exact Or.inl ⟨by assumption, rfl⟩
  · intro hr1 hr2
    simp only [Sphere.intersect_eq, if_pos hr1, if_pos hr2, ite_self]
  · intro h hh hsq hd
    obtain ⟨hroot, hpt, hnorm, _⟩ := Sphere.intersect_shape hh
    have hdist := Sphere.root_on_sphere hsq hd hroot
    rw [← hpt] at hdist
    exact ⟨hdist, hnorm⟩

/-- C5, witness: the characterization instantiated on `axisRay` against
`unitSphere`, whose discriminant `1` has exact square root; the hit is at
`t = 4`, on the sphere, with radial unit normal. -/
theorem claim5_witness :
    Vec3.dot (axisHit.point - unitSphere.center) (axisHit.point - unitSphere.center) =
        unitSphere.radius * unitSphere.radius ∧
      axisHit.normal = (axisHit.point - unitSphere.center).scale (1 / unitSphere.radius) := by
  refine (claim5_sphere_quadratic unitSphere axisRay (1 / 1000) ⊤).2.2.2 axisHit
    sphere_axis_eval ?_ ?_
  · have : unitSphere.disc axisRay = 1 := by
      norm_num [Sphere.disc_def, unitSphere, axisRay, mat0, Vec3.dot, Vec3.sub_def,
        Vec3.length_squared]
    rw [this, ratSqrt_one]
    norm_num
  · intro hc
    have := congrArg Vec3.z hc
    norm_num [axisRay, Vec3.zero] at this

/-! ### Claim C6 -/

theorem Cube.intersect_none_axis {cb : Cube} {ray : Ray} {t_min : ℚ} {t_max : WithTop ℚ}
    (i : Fin 3) (hpar : |ray.direction.nth i| < 1 / 1000000)
    (hout : ray.origin.nth i < cb.min.nth i ∨ ray.origin.nth i > cb.max.nth i) :
    cb.intersect ray t_min t_max = none := by
  fin_cases i
  · have hp : |ray.direction.nth 0| < 1 / 1000000 := hpar
    have ho : ray.origin.nth 0 < cb.min.nth 0 ∨ ray.origin.nth 0 > cb.max.nth 0 := hout
    simp only [Cube.intersect]
    rw [slabAxis_parallel_outside _ hp ho]
    rfl
  · have hp : |ray.direction.nth 1| < 1 / 1000000 := hpar
    have ho : ray.origin.nth 1 < cb.min.nth 1 ∨ ray.origin.nth 1 > cb.max.nth 1 := hout
    simp only [Cube.intersect]
    rcases h0 : slabAxis (cb.min.nth 0) (cb.max.nth 0) (ray.origin.nth 0)
        (ray.direction.nth 0) 0 ⟨t_min, t_max, Vec3.zero⟩ with _ | st1
    · rfl
    · simp only [Option.some_bind]
      rw [slabAxis_parallel_outside _ hp ho]
      rfl
  · have hp : |ray.direction.nth 2| < 1 / 1000000 := hpar
    have ho : ray.origin.nth 2 < cb.min.nth 2 ∨ ray.origin.nth 2 > cb.max.nth 2 := hout
    simp only [Cube.intersect]
    rcases h0 : slabAxis (cb.min.nth 0) (cb.max.nth 0) (ray.origin.nth 0)
        (ray.direction.nth 0) 0 ⟨t_min, t_max, Vec3.zero⟩ with _ | st1
    · rfl
    · simp only [Option.some_bind]
      rcases h1 : slabAxis (cb.min.nth 1) (cb.max.nth 1) (ray.origin.nth 1)
          (ray.direction.nth 1) 1 st1 with _ | st2
      · rfl
      · simp only [Option.some_bind]
        rw [slabAxis_parallel_outside _ hp ho]
        rfl

/-- C6: the slab method.  The ray fired along `-Z` from `(0,0,5)` at the
box `[-1,-1,-1]..[1,1,1]` hits at `t = 4` with normal `(0,0,1)`; and a
near-zero direction component on any axis rejects the ray whenever the
origin lies outside that axis's slab, regardless of the other axes. -/
theorem claim6_cube_slab :
    unitCube.intersect axisRay (1 / 1000) ⊤ = some axisHit ∧
      (∀ (cb : Cube) (ray : Ray) (t_min : ℚ) (t_max : WithTop ℚ) (i : Fin 3),
        |ray.direction.nth i| < 1 / 1000000 →
        (ray.origin.nth i < cb.min.nth i ∨ ray.origin.nth i > cb.max.nth i) →
        cb.intersect ray t_min t_max = none) := by
  refine ⟨cube_axis_eval, ?_⟩
  intro cb ray t_min t_max i hpar hout
  exact Cube.intersect_none_axis i hpar hout

/-- C6, witness: the parallel-axis rejection instantiated on a ray that is
parallel to the `y` slabs of `unitCube` and outside them. -/
theorem claim6_witness :
    unitCube.intersect ⟨⟨0, 5, 5⟩, ⟨0, 0, -1⟩⟩ (1 / 1000) ⊤ = none := by
  refine claim6_cube_slab.2 unitCube ⟨⟨0, 5, 5⟩, ⟨0, 0, -1⟩⟩ (1 / 1000) ⊤ 1 ?_ ?_
  · norm_num [Vec3.nth]
  · right
    norm_num [Vec3.nth, unitCube]

/-! ### Claim C1: the scene scan computes the scan-order minimum -/

theorem Scene.intersect_eq_scan (s : Scene) (ray : Ray) (t_min : ℚ) (t_max : WithTop ℚ) :
    s.intersect ray t_min t_max =
      ((s.queries ray t_min).foldl scanStep (none, t_max)).1 := by
  simp only [Scene.intersect, Scene.queries, scanStep, List.foldl_append, List.foldl_map]

theorem plane_query_consistent (p : Plane) (ray : Ray) (t_min : ℚ) (t_max : WithTop ℚ) :
    QueryConsistent t_min t_max (fun ct => p.intersect ray t_min ct) := by
  intro ct h1 h2
  simp only [Plane.intersect]
  by_cases hden : |Vec3.dot p.normal ray.direction| > 1 / 1000000
  · rw [if_pos hden, if_pos hden]
    set t := Vec3.dot (p.point - ray.origin) p.normal / Vec3.dot p.normal ray.direction
      with ht
    by_cases hfull : t ≥ t_min ∧ (t : WithTop ℚ) ≤ t_max
    · rw [if_pos hfull]
      have hbind : (some (⟨t, ray.at t, p.normal, p.material⟩ : HitRecord)).bind
            (fun h => if h.t ≤ ct then some h else none) =
          if t ≤ ct then some (⟨t, ray.at t, p.normal, p.material⟩ : HitRecord)
          else none := rfl
      rw [hbind]
      by_cases hct : t ≤ ct
      · rw [if_pos hct, if_pos ⟨hfull.1, WithTop.coe_le_coe.mpr hct⟩]
      · rw [if_neg hct, if_neg]
        intro hc
        exact hct (WithTop.coe_le_coe.mp hc.2)
    · rw [if_neg hfull, Option.none_bind, if_neg]
      intro hc
      exact hfull ⟨hc.1, hc.2.trans h2⟩
  · rw [if_neg hden, if_neg hden, Option.none_bind]

theorem plane_query_in_range (p : Plane) (ray : Ray) (t_min : ℚ) :
    QueryInRange t_min (fun ct => p.intersect ray t_min ct) := by
  intro b h _ hh
  obtain ⟨h1, h2, _, _, _⟩ := plane_intersect_props hh
  exact ⟨h1, h2⟩

theorem sphere_query_in_range (sp : Sphere) (ray : Ray) (t_min : ℚ) :
    QueryInRange t_min (fun ct => sp.intersect ray t_min ct) := by
  intro b h _ hh
  exact Sphere.intersect_t_mem hh

theorem cube_query_in_range (cb : Cube) (ray : Ray) (t_min : ℚ) :
    QueryInRange t_min (fun ct => cb.intersect ray t_min ct) := by
  intro b h hb hh
  obtain ⟨h1, h2, _, _, _⟩ := cube_intersect_props hb hh
  exact ⟨h1, h2⟩

theorem guardSome (rec : HitRecord) (ct : ℚ) :
    (some rec).bind (fun h => if h.t ≤ ct then some h else none) =
      if rec.t ≤ ct then some rec else none := rfl

theorem bestAux_cons (b : Option HitRecord) (a : HitRecord) (l : List HitRecord) :
    bestAux b (a :: l) =
      bestAux
        (match b with
          | none => some a
          | some b2 => if a.t ≤ b2.t then some a else some b2) l := rfl

theorem scan_eq_bestAux (t_min : ℚ) (t_max : WithTop ℚ)
    (qs : List (WithTop ℚ → Option HitRecord))
    (hcons : ∀ q ∈ qs, QueryConsistent t_min t_max q)
    (hrange : ∀ q ∈ qs, QueryInRange t_min q)
    (hmm : (t_min : WithTop ℚ) ≤ t_max) :
    ∀ (b : Option HitRecord) (ct : WithTop ℚ),
      ((b = none ∧ t_max = ct) ∨
        (∃ hb : HitRecord, b = some hb ∧ ct = (hb.t : WithTop ℚ) ∧ t_min ≤ hb.t ∧
          (hb.t : WithTop ℚ) ≤ t_max)) →
      (qs.foldl scanStep (b, ct)).1 = bestAux b (qs.filterMap (fun q => q t_max)) := by
  induction qs with
  | nil =>
    intro b ct _
    rfl
  | cons q rest ih =>
    have hconsq := hcons q (List.mem_cons_self q rest)
    have hrangeq := hrange q (List.mem_cons_self q rest)
    have hconsr : ∀ q2 ∈ rest, QueryConsistent t_min t_max q2 := fun q2 hq2 =>
      hcons q2 (List.mem_cons_of_mem _ hq2)
    have hranger : ∀ q2 ∈ rest, QueryInRange t_min q2 := fun q2 hq2 =>
      hrange q2 (List.mem_cons_of_mem _ hq2)
    intro b ct hinv
    rcases hinv with ⟨rfl, rfl⟩ | ⟨hb, rfl, rfl, hr1, hr2⟩
    · rcases hq : q t_max with _ | h
      · have hstep : scanStep (none, t_max) q = (none, t_max) := by
          simp only [scanStep, hq]
        rw [List.foldl_cons, hstep, List.filterMap_cons_none (f := fun q2 : WithTop ℚ → Option HitRecord => q2 t_max) hq]
        exact ih hconsr hranger none t_max (Or.inl ⟨rfl, rfl⟩)
      · have hstep : scanStep (none, t_max) q = (some h, (h.t : WithTop ℚ)) := by
          simp only [scanStep, hq]
        obtain ⟨hh1, hh2⟩ := hrangeq t_max h hmm hq
        rw [List.foldl_cons, hstep, List.filterMap_cons_some (f := fun q2 : WithTop ℚ → Option HitRecord => q2 t_max) hq, bestAux_cons]
        exact ih hconsr hranger (some h) (h.t : WithTop ℚ) (Or.inr ⟨h, rfl, rfl, hh1, hh2⟩)
    · have hshrunk := hconsq hb.t hr1 hr2
      rcases hq : q t_max with _ | h
      · rw [hq, Option.none_bind] at hshrunk
        have hstep : scanStep (some hb, (hb.t : WithTop ℚ)) q =
            (some hb, (hb.t : WithTop ℚ)) := by
          simp only [scanStep, hshrunk]
        rw [List.foldl_cons, hstep, List.filterMap_cons_none (f := fun q2 : WithTop ℚ → Option HitRecord => q2 t_max) hq]
        exact ih hconsr hranger (some hb) _ (Or.inr ⟨hb, rfl, rfl, hr1, hr2⟩)
      · rw [hq, guardSome] at hshrunk
        obtain ⟨hh1, hh2⟩ := hrangeq t_max h hmm hq
        by_cases hcmp : h.t ≤ hb.t
        · rw [if_pos hcmp] at hshrunk
          have hstep : scanStep (some hb, (hb.t : WithTop ℚ)) q =
              (some h, (h.t : WithTop ℚ)) := by
            simp only [scanStep, hshrunk]
          rw [List.foldl_cons, hstep, List.filterMap_cons_some (f := fun q2 : WithTop ℚ → Option HitRecord => q2 t_max) hq, bestAux_cons]
          simp only [if_pos hcmp]
          exact ih hconsr hranger (some h) _ (Or.inr ⟨h, rfl, rfl, hh1, hh2⟩)
        · rw [if_neg hcmp] at hshrunk
          have hstep : scanStep (some hb, (hb.t : WithTop ℚ)) q =
              (some hb, (hb.t : WithTop ℚ)) := by
            simp only [scanStep, hshrunk]
          rw [List.foldl_cons, hstep, List.filterMap_cons_some (f := fun q2 : WithTop ℚ → Option HitRecord => q2 t_max) hq, bestAux_cons]
          simp only [if_neg hcmp]
          exact ih hconsr hranger (some hb) _ (Or.inr ⟨hb, rfl, rfl, hr1, hr2⟩)

theorem sphere_query_consistent (sp : Sphere) (ray : Ray) (t_min : ℚ) (t_max : WithTop ℚ) :
    QueryConsistent t_min t_max (fun ct => sp.intersect ray t_min ct) := by
  intro ct h1 h2
  have hle := Sphere.roots_le sp ray
  simp only [Sphere.intersect_eq]
  by_cases hdisc : sp.disc ray < 0
  · simp only [if_pos hdisc, Option.none_bind]
  · simp only [if_neg hdisc]
    by_cases hA1 : (sp.roots ray).1 < t_min ∨ t_max < (((sp.roots ray).1 : ℚ) : WithTop ℚ)
    · have hA1' : (sp.roots ray).1 < t_min ∨
          (ct : WithTop ℚ) < (((sp.roots ray).1 : ℚ) : WithTop ℚ) := by
        rcases hA1 with h | h
        · exact Or.inl h
        · exact Or.inr (lt_of_le_of_lt h2 h)
      simp only [if_pos hA1, if_pos hA1']
      by_cases hA2 : (sp.roots ray).2 < t_min ∨ t_max < (((sp.roots ray).2 : ℚ) : WithTop ℚ)
      · have hA2' : (sp.roots ray).2 < t_min ∨
            (ct : WithTop ℚ) < (((sp.roots ray).2 : ℚ) : WithTop ℚ) := by
          rcases hA2 with h | h
          · exact Or.inl h
          · exact Or.inr (lt_of_le_of_lt h2 h)
        simp only [if_pos hA2, if_pos hA2', Option.none_bind]
      · push_neg at hA2
        simp only [if_neg (show ¬((sp.roots ray).2 < t_min ∨
            t_max < (((sp.roots ray).2 : ℚ) : WithTop ℚ)) from by push_neg; exact hA2),
          guardSome]
        dsimp only
        by_cases hct : (sp.roots ray).2 ≤ ct
        · have hnA2' : ¬((sp.roots ray).2 < t_min ∨
              (ct : WithTop ℚ) < (((sp.roots ray).2 : ℚ) : WithTop ℚ)) := by
            push_neg
            exact ⟨hA2.1, WithTop.coe_le_coe.mpr hct⟩
          simp only [if_neg hnA2', if_pos hct]
        · have hA2' : (sp.roots ray).2 < t_min ∨
              (ct : WithTop ℚ) < (((sp.roots ray).2 : ℚ) : WithTop ℚ) :=
            Or.inr (WithTop.coe_lt_coe.mpr (not_le.mp hct))
          simp only [if_pos hA2', if_neg hct]
    · push_neg at hA1
      simp only [if_neg (show ¬((sp.roots ray).1 < t_min ∨
          t_max < (((sp.roots ray).1 : ℚ) : WithTop ℚ)) from by push_neg; exact hA1),
        guardSome]
      dsimp only
      by_cases hct : (sp.roots ray).1 ≤ ct
      · have hnA1' : ¬((sp.roots ray).1 < t_min ∨
            (ct : WithTop ℚ) < (((sp.roots ray).1 : ℚ) : WithTop ℚ)) := by
          push_neg
          exact ⟨hA1.1, WithTop.coe_le_coe.mpr hct⟩
        simp only [if_neg hnA1', if_pos hct]
      · have hA1' : (sp.roots ray).1 < t_min ∨
            (ct : WithTop ℚ) < (((sp.roots ray).1 : ℚ) : WithTop ℚ) :=
          Or.inr (WithTop.coe_lt_coe.mpr (not_le.mp hct))
        simp only [if_pos hA1', if_neg hct]
        have hA2' : (sp.roots ray).2 < t_min ∨
            (ct : WithTop ℚ) < (((sp.roots ray).2 : ℚ) : WithTop ℚ) :=
          Or.inr (lt_of_lt_of_le (WithTop.coe_lt_coe.mpr (not_le.mp hct))
            (WithTop.coe_le_coe.mpr hle))
        simp only [if_pos hA2']

theorem slabState_far_min (n1 : ℚ) (nm : Vec3) (a b : WithTop ℚ) :
    (if a < b then (⟨n1, a, nm⟩ : SlabState) else ⟨n1, b, nm⟩) = ⟨n1, min a b, nm⟩ := by
  by_cases h : a < b
  · rw [if_pos h, min_eq_left h.le]
  · rw [if_neg h, min_eq_right (not_lt.mp h)]

theorem slabFinalAux (n1 : ℚ) (nm : Vec3) (a tf : WithTop ℚ) (ct : ℚ) :
    (if (n1 : WithTop ℚ) > min a (min (ct : WithTop ℚ) tf) then none
      else some (⟨n1, min a (min (ct : WithTop ℚ) tf), nm⟩ : SlabState)) =
    (if (n1 : WithTop ℚ) > min a tf then none
      else some (⟨n1, min a tf, nm⟩ : SlabState)).bind
      (fun st => if st.t_near ≤ ct then
        some ⟨st.t_near, min (ct : WithTop ℚ) st.t_far, st.normal⟩ else none) := by
  by_cases hg : n1 ≤ ct
  · by_cases hf : (n1 : WithTop ℚ) > min a tf
    · rw [if_pos hf, Option.none_bind, if_pos]
      exact lt_of_le_of_lt (min_le_min le_rfl (min_le_right _ _)) hf
    · rw [if_neg hf, Option.some_bind]
      dsimp only
      rw [if_pos hg, if_neg]
      · rw [min_left_comm]
      · push_neg at hf ⊢
        exact le_min (le_min (le_trans hf (min_le_left _ _))
          (le_min (WithTop.coe_le_coe.mpr hg) (le_trans hf (min_le_right _ _))) |>.trans
            (min_le_left _ _))
          (le_min (WithTop.coe_le_coe.mpr hg) (le_trans hf (min_le_right _ _)))
  · have hctlt : (ct : WithTop ℚ) < (n1 : WithTop ℚ) := WithTop.coe_lt_coe.mpr (not_le.mp hg)
    rw [if_pos (lt_of_le_of_lt (le_trans (min_le_right _ _) (min_le_left _ _)) hctlt)]
    by_cases hf : (n1 : WithTop ℚ) > min a tf
    · rw [if_pos hf, Option.none_bind]
    · rw [if_neg hf, Option.some_bind]
      dsimp only
      rw [if_neg hg]

theorem slabAxis_consistency (minVal maxVal origin direction : ℚ) (i : Fin 3) (tn : ℚ)
    (tf : WithTop ℚ) (nrm : Vec3) (ct : ℚ) (htn : tn ≤ ct) :
    slabAxis minVal maxVal origin direction i ⟨tn, min (ct : WithTop ℚ) tf, nrm⟩ =
      (slabAxis minVal maxVal origin direction i ⟨tn, tf, nrm⟩).bind
        (fun st => if st.t_near ≤ ct then
          some ⟨st.t_near, min (ct : WithTop ℚ) st.t_far, st.normal⟩ else none) := by
  simp only [slabAxis]
  by_cases hpar : |direction| < 1 / 1000000
  · rw [if_pos hpar, if_pos hpar]
    by_cases hout : origin < minVal ∨ origin > maxVal
    · rw [if_pos hout, if_pos hout]
      rfl
    · rw [if_neg hout, if_neg hout, Option.some_bind]
      dsimp only
      rw [if_pos htn]
  · rw [if_neg hpar, if_neg hpar]
    by_cases hgt : (if (minVal - origin) / direction > (maxVal - origin) / direction then
        ((maxVal - origin) / direction, (minVal - origin) / direction, (1 : ℚ))
      else ((minVal - origin) / direction, (maxVal - origin) / direction, (-1 : ℚ))).1 > tn
    · rw [if_pos hgt, if_pos hgt]
      try dsimp only
      rw [slabState_far_min, slabState_far_min]
      exact slabFinalAux _ _ _ _ _
    · rw [if_neg hgt, if_neg hgt]
      try dsimp only
      rw [slabState_far_min, slabState_far_min]
      exact slabFinalAux _ _ _ _ _

theorem cube_query_consistent (cb : Cube) (ray : Ray) (t_min : ℚ) (t_max : WithTop ℚ) :
    QueryConsistent t_min t_max (fun ct => cb.intersect ray t_min ct) := by
  intro ct h1 h2
  have hb0 : (t_min : WithTop ℚ) ≤ t_max := le_trans (WithTop.coe_le_coe.mpr h1) h2
  simp only [Cube.intersect]
  have hinit : (⟨t_min, (ct : WithTop ℚ), Vec3.zero⟩ : SlabState) =
      ⟨t_min, min (ct : WithTop ℚ) t_max, Vec3.zero⟩ := by
    rw [min_eq_left h2]
  rw [hinit, slabAxis_consistency _ _ _ _ _ _ _ _ _ h1]
  rcases h0 : slabAxis (cb.min.nth 0) (cb.max.nth 0) (ray.origin.nth 0)
      (ray.direction.nth 0) 0 ⟨t_min, t_max, Vec3.zero⟩ with _ | st1
  · simp only [Option.none_bind, Option.map_none']
  · obtain ⟨b1, n1m, f1, _⟩ := slabAxis_some h0 hb0
    simp only [Option.some_bind]
    by_cases hg1 : st1.t_near ≤ ct
    · rw [if_pos hg1]
      simp only [Option.some_bind]
      rw [slabAxis_consistency _ _ _ _ _ _ _ _ _ hg1]
      rcases h1s : slabAxis (cb.min.nth 1) (cb.max.nth 1) (ray.origin.nth 1)
          (ray.direction.nth 1) 1 st1 with _ | st2
      · simp only [Option.none_bind, Option.map_none']
      · obtain ⟨b2, n2m, f2, _⟩ := slabAxis_some h1s b1
        simp only [Option.some_bind]
        by_cases hg2 : st2.t_near ≤ ct
        · rw [if_pos hg2]
          simp only [Option.some_bind]
          rw [slabAxis_consistency _ _ _ _ _ _ _ _ _ hg2]
          rcases h2s : slabAxis (cb.min.nth 2) (cb.max.nth 2) (ray.origin.nth 2)
              (ray.direction.nth 2) 2 st2 with _ | st3
          · simp only [Option.none_bind, Option.map_none']
          · obtain ⟨b3, n3m, f3, _⟩ := slabAxis_some h2s b2
            simp only [Option.some_bind]
            by_cases hg3 : st3.t_near ≤ ct
            · rw [if_pos hg3]
              simp only [Option.map_some', Option.some_bind]
              rw [if_pos hg3]
            · rw [if_neg hg3]
              simp only [Option.map_some', Option.some_bind, Option.map_none']
              rw [if_neg hg3]
        · rw [if_neg hg2]
          rcases h2s : slabAxis (cb.min.nth 2) (cb.max.nth 2) (ray.origin.nth 2)
              (ray.direction.nth 2) 2 st2 with _ | st3
          · simp only [h2s, Option.none_bind, Option.map_none']
          · obtain ⟨b3, n3m, f3, _⟩ := slabAxis_some h2s b2
            simp only [h2s, Option.map_some', Option.some_bind, Option.none_bind,
              Option.map_none']
            rw [if_neg fun hc => hg2 (le_trans n3m hc)]
    · rw [if_neg hg1]
      rcases h1s : slabAxis (cb.min.nth 1) (cb.max.nth 1) (ray.origin.nth 1)
          (ray.direction.nth 1) 1 st1 with _ | st2
      · simp only [h1s, Option.none_bind, Option.map_none']
      · obtain ⟨b2, n2m, f2, _⟩ := slabAxis_some h1s b1
        rcases h2s : slabAxis (cb.min.nth 2) (cb.max.nth 2) (ray.origin.nth 2)
            (ray.direction.nth 2) 2 st2 with _ | st3
        · simp only [h1s, h2s, Option.some_bind, Option.none_bind, Option.map_none']
        · obtain ⟨b3, n3m, f3, _⟩ := slabAxis_some h2s b2
          simp only [h1s, h2s, Option.some_bind, Option.map_some', Option.none_bind,
            Option.map_none']
          rw [if_neg fun hc => hg1 (le_trans n2m (le_trans n3m hc))]

theorem bestAux_spec (l : List HitRecord) :
    ∀ b : Option HitRecord,
      (bestAux b l = none ↔ b = none ∧ l = []) ∧
      (∀ h : HitRecord, bestAux b l = some h →
        (b = some h ∨ h ∈ l) ∧ (∀ h2 ∈ l, h.t ≤ h2.t) ∧
          (∀ hb : HitRecord, b = some hb → h.t ≤ hb.t)) := by
  induction l with
  | nil =>
    intro b
    refine ⟨by simp [bestAux], ?_⟩
    intro h hh
    exact ⟨Or.inl hh, by simp, fun hb hbe => by simp_all [bestAux]⟩
  | cons a tl ih =>
    intro b
    have hstep : bestAux b (a :: tl) =
        bestAux (match b with
          | none => some a
          | some b2 => if a.t ≤ b2.t then some a else some b2) tl := rfl
    constructor
    · rw [hstep]
      constructor
      · intro hnone
        have := ((ih _).1).mp hnone
        rcases b with _ | b2
        · simp at this
        · simp only at this
          split at this <;> simp at this
      · rintro ⟨rfl, hl⟩
        simp at hl
    · intro h hh
      rw [hstep] at hh
      obtain ⟨hmem, hmin, hinit⟩ := (ih _).2 h hh
      rcases b with _ | b2
      · simp only at hmem hinit
        constructor
        · rcases hmem with hm | hm
          · exact Or.inr (by simp [← Option.some.inj hm])
          · exact Or.inr (List.mem_cons_of_mem _ hm)
        refine ⟨?_, by simp⟩
        intro h2 hh2
        rcases List.mem_cons.mp hh2 with rfl | hh2
        · exact hinit h2 rfl
        · exact hmin h2 hh2
      · simp only at hmem hinit
        by_cases hcmp : a.t ≤ b2.t
        · rw [if_pos hcmp] at hmem hinit
          constructor
          · rcases hmem with hm | hm
            · exact Or.inr (by simp [← Option.some.inj hm])
            · exact Or.inr (List.mem_cons_of_mem _ hm)
          constructor
          · intro h2 hh2
            rcases List.mem_cons.mp hh2 with rfl | hh2
            · exact hinit h2 rfl
            · exact hmin h2 hh2
          · intro hb hbe
            cases Option.some.inj hbe
            exact (hinit a rfl).trans hcmp
        · rw [if_neg hcmp] at hmem hinit
          push_neg at hcmp
          constructor
          · rcases hmem with hm | hm
            · exact Or.inl hm
            · exact Or.inr (List.mem_cons_of_mem _ hm)
          constructor
          · intro h2 hh2
            rcases List.mem_cons.mp hh2 with rfl | hh2
            · exact (hinit b2 rfl).trans (le_of_lt hcmp)
            · exact hmin h2 hh2
          · intro hb hbe
            cases Option.some.inj hbe
            exact hinit b2 rfl


theorem Scene.allHits_eq (s : Scene) (ray : Ray) (t_min : ℚ) (t_max : WithTop ℚ) :
    s.allHits ray t_min t_max = (s.queries ray t_min).filterMap (fun q => q t_max) := by
  simp only [Scene.allHits, Scene.queries, List.filterMap_append, List.filterMap_map]
  rfl

theorem scene_queries_consistent (s : Scene) (ray : Ray) (t_min : ℚ) (t_max : WithTop ℚ) :
    ∀ q ∈ s.queries ray t_min, QueryConsistent t_min t_max q := by
  intro q hq
  simp only [Scene.queries, List.mem_append, List.mem_map] at hq
  rcases hq with (⟨sp, _, rfl⟩ | ⟨cb, _, rfl⟩) | ⟨pl, _, rfl⟩
  · exact sphere_query_consistent sp ray t_min t_max
  · exact cube_query_consistent cb ray t_min t_max
  · exact plane_query_consistent pl ray t_min t_max

theorem scene_queries_in_range (s : Scene) (ray : Ray) (t_min : ℚ) :
    ∀ q ∈ s.queries ray t_min, QueryInRange t_min q := by
  intro q hq
  simp only [Scene.queries, List.mem_append, List.mem_map] at hq
  rcases hq with (⟨sp, _, rfl⟩ | ⟨cb, _, rfl⟩) | ⟨pl, _, rfl⟩
  · exact sphere_query_in_range sp ray t_min
  · exact cube_query_in_range cb ray t_min
  · exact plane_query_in_range pl ray t_min

/-- C1, amended: for `t_min ≤ t_max`, `Scene::intersect` returns the hit
with the smallest `t` among all spheres, cubes and planes queried
independently over the full `[t_min, t_max]` interval (`none` when there
is no such hit) — but on an exact tie of `t` the LATEST-scanned
primitive's hit is the one returned (`bestAux` replaces on `≤`), not the
earliest-scanned one as claimed: every primitive accepts a hit at exactly
the shrunken upper bound, so an equal-`t` later hit overwrites the
earlier one. -/
theorem claim1_scene_closest_hit (s : Scene) (ray : Ray) (t_min : ℚ) (t_max : WithTop ℚ)
    (hbound : (t_min : WithTop ℚ) ≤ t_max) :
    s.intersect ray t_min t_max = bestAux none (s.allHits ray t_min t_max) ∧
    (s.intersect ray t_min t_max = none ↔ s.allHits ray t_min t_max = []) ∧
    (∀ h : HitRecord, s.intersect ray t_min t_max = some h →
      h ∈ s.allHits ray t_min t_max ∧ ∀ h2 ∈ s.allHits ray t_min t_max, h.t ≤ h2.t) := by
  have hmain : s.intersect ray t_min t_max = bestAux none (s.allHits ray t_min t_max) := by
    rw [Scene.intersect_eq_scan, Scene.allHits_eq]
    exact scan_eq_bestAux t_min t_max _ (scene_queries_consistent s ray t_min t_max)
      (scene_queries_in_range s ray t_min) hbound none t_max (Or.inl ⟨rfl, rfl⟩)
  refine ⟨hmain, ?_, ?_⟩
  · rw [hmain]
    constructor
    · intro hnone
      exact ((bestAux_spec (s.allHits ray t_min t_max) none).1.mp hnone).2
    · intro hnil
      rw [hnil]
      rfl
  · intro h hh
    rw [hmain] at hh
    obtain ⟨hmem, hmin, _⟩ := (bestAux_spec (s.allHits ray t_min t_max) none).2 h hh
    rcases hmem with hm | hm
    · exact absurd hm (by simp)
    · exact ⟨hm, hmin⟩

/-- C1, witness: the amended characterization applied to a one-sphere
scene with the trivial bound `t_min ≤ ⊤`. -/
theorem claim1_witness :
    Scene.intersect oneSphereScene axisRay (1 / 1000) ⊤ =
      bestAux none (Scene.allHits oneSphereScene axisRay (1 / 1000) ⊤) :=
  (claim1_scene_closest_hit oneSphereScene axisRay (1 / 1000) ⊤ le_top).1

/-- C1, counterexample to the tie-breaking direction: two geometrically
identical spheres, red scanned first, blue second.  Both individually hit
`axisRay` at exactly `t = 4`, yet `Scene::intersect` returns the hit of
the LATER-scanned blue sphere, because the blue sphere's root `4` passes
the non-strict test against the shrunken upper bound `4`.  The claim says
the earliest-scanned primitive's hit should be returned on ties. -/
theorem claim1_counterexample :
    redSphere.intersect axisRay (1 / 1000) ⊤ = some ⟨4, ⟨0, 0, 1⟩, ⟨0, 0, 1⟩, redMat⟩ ∧
    blueSphere.intersect axisRay (1 / 1000) ⊤ = some ⟨4, ⟨0, 0, 1⟩, ⟨0, 0, 1⟩, blueMat⟩ ∧
    twoSpheresScene.intersect axisRay (1 / 1000) ⊤ =
      some ⟨4, ⟨0, 0, 1⟩, ⟨0, 0, 1⟩, blueMat⟩ ∧
    blueMat ≠ redMat := by
  refine ⟨?_, ?_, ?_, ?_⟩
  · norm_num [Sphere.intersect, redSphere, axisRay, redMat, Vec3.length_squared,
      Vec3.dot, Vec3.sub_def, ratSqrt_one, Ray.at, Vec3.add_def, Vec3.scale,
      WithTop.coe_lt_top]
  · norm_num [Sphere.intersect, blueSphere, axisRay, blueMat, Vec3.length_squared,
      Vec3.dot, Vec3.sub_def, ratSqrt_one, Ray.at, Vec3.add_def, Vec3.scale,
      WithTop.coe_lt_top]
  · norm_num [Scene.intersect, twoSpheresScene, Sphere.intersect, redSphere, blueSphere,
      axisRay, redMat, blueMat, Vec3.length_squared, Vec3.dot, Vec3.sub_def, ratSqrt_one,
      Ray.at, Vec3.add_def, Vec3.scale, -WithTop.coe_ofNat, WithTop.coe_lt_top,
      WithTop.coe_le_coe, WithTop.coe_lt_coe, -WithTop.coe_one, wtopLtSub, wtopLtAdd,
      wtopSubLt, wtopAddLt]
  · intro hc
    have := congrArg (fun m => m.color.x) hc
    norm_num [redMat, blueMat] at this

/-! ### Claim C9 -/

/-- C9: both integrators return the zero radiance at depth 0, for every
environment, scene and ray. -/
theorem claim9_depth_zero (env : Env) (scene : Scene) (ray : Ray) :
    traceRay env scene ray 0 = Vec3.zero ∧ tracePathtrace env scene ray 0 = Vec3.zero :=
  ⟨rfl, rfl⟩

/-! ### Claim C4 -/

/-- C4: in the Whitted integrator, a hit on a Dielectric material (at depth
at least 1) returns exactly the recursive radiance of the single
stochastically selected secondary ray (reflected or refracted, one depth
less), discarding the ambient/diffuse/specular/reflectivity color
accumulated earlier for that hit. -/
theorem claim4_whitted_dielectric (env : Env) (scene : Scene) (ray : Ray) (depth : ℕ)
    (hit : HitRecord) (hhit : scene.intersect ray (1 / 1000) ⊤ = some hit)
    (hdie : hit.material.mat_type = MaterialType.Dielectric) :
    traceRay env scene ray (depth + 1) =
      (let unit_direction := ray.direction.normalize
       let d := Vec3.dot unit_direction hit.normal
       let nr : Vec3 × ℚ :=
         if d < 0 then (hit.normal, 1 / hit.material.ior)
         else (-hit.normal, hit.material.ior)
       let cos_theta := min (Vec3.dot (-unit_direction) nr.1) 1
       let sin_theta := ratSqrt (1 - cos_theta * cos_theta)
       let cannot_refract := nr.2 * sin_theta > 1
       let direction :=
         if cannot_refract ∨ reflectance cos_theta nr.2 > env.rng (depth + 1) then
           Vec3.reflect unit_direction nr.1
         else refract unit_direction nr.1 nr.2
       traceRay env scene ⟨hit.point, direction⟩ depth) := by
  conv_lhs => rw [traceRay]
  rw [hhit]
  simp only [if_pos hdie]

/-- C4, witness: a glass sphere straight ahead with no lights; at depth 1
the Whitted integrator returns the depth-0 recursion of the secondary ray,
namely black. -/
theorem claim4_witness :
    glassScene.intersect axisRay (1 / 1000) ⊤ = some glassHit ∧
    glassHit.material.mat_type = MaterialType.Dielectric ∧
    traceRay env0 glassScene axisRay 1 = Vec3.zero := by
  have hhit : glassScene.intersect axisRay (1 / 1000) ⊤ = some glassHit := by
    norm_num [Scene.intersect, glassScene, Sphere.intersect, glassSphere, glassHit,
      axisRay, glassMat, Vec3.length_squared, Vec3.dot, Vec3.sub_def, ratSqrt_one,
      Ray.at, Vec3.add_def, Vec3.scale, WithTop.coe_lt_top]
  refine ⟨hhit, rfl, ?_⟩
  exact (claim4_whitted_dielectric env0 glassScene axisRay 0 glassHit hhit rfl).trans rfl

/-! ### Claim C8 -/

theorem recPT_step (env : Env) (scene : Scene) (ray : Ray) (depth : ℕ) (path : RayPath)
    (ip : Bool) (hit : HitRecord) (h : scene.intersect ray (1 / 1000) ⊤ = some hit) :
    recPT env scene ray (depth + 1) path ip =
      recPT env scene ⟨hit.point, (ptScatter env (depth + 1) ray hit).1⟩ depth
        { path with
          points := path.points ++ [hit.point],
          segment_types := path.segment_types ++
            [if ip then RaySegmentType.Primary else (ptScatter env (depth + 1) ray hit).2],
          hit := true }
        false := by
  simp only [recPT, h]
  rfl

theorem recRT_step_diel (env : Env) (scene : Scene) (ray : Ray) (depth : ℕ)
    (path : RayPath) (ip : Bool) (hit : HitRecord)
    (h : scene.intersect ray (1 / 1000) ⊤ = some hit)
    (hdie : hit.material.mat_type = MaterialType.Dielectric) :
    recRT env scene ray (depth + 1) path ip =
      recRT env scene ⟨hit.point, (dielectricScatter env (depth + 1) ray hit).1⟩ depth
        { path with
          points := path.points ++ [hit.point],
          segment_types := path.segment_types ++
            [if ip then RaySegmentType.Primary
              else (dielectricScatter env (depth + 1) ray hit).2],
          hit := true }
        false := by
  simp only [recRT, h]
  rw [if_pos hdie]
  rfl

theorem recRT_step_refl (env : Env) (scene : Scene) (ray : Ray) (depth : ℕ)
    (path : RayPath) (ip : Bool) (hit : HitRecord)
    (h : scene.intersect ray (1 / 1000) ⊤ = some hit)
    (hdie : ¬hit.material.mat_type = MaterialType.Dielectric)
    (hrefl : hit.material.reflectivity > 0) :
    recRT env scene ray (depth + 1) path ip =
      recRT env scene ⟨hit.point, Vec3.reflect ray.direction hit.normal⟩ depth
        { path with
          points := path.points ++ [hit.point],
          segment_types := path.segment_types ++
            [if ip then RaySegmentType.Primary else RaySegmentType.Reflection],
          hit := true }
        false := by
  simp only [recRT, h]
  rw [if_neg hdie, if_pos hrefl]

theorem recRT_step_stop (env : Env) (scene : Scene) (ray : Ray) (depth : ℕ)
    (path : RayPath) (ip : Bool) (hit : HitRecord)
    (h : scene.intersect ray (1 / 1000) ⊤ = some hit)
    (hdie : ¬hit.material.mat_type = MaterialType.Dielectric)
    (hrefl : ¬hit.material.reflectivity > 0) :
    recRT env scene ray (depth + 1) path ip =
      { path with
        points := path.points ++ [hit.point],
        segment_types := path.segment_types ++
          [if ip then RaySegmentType.Primary else RaySegmentType.Diffuse],
        hit := true } := by
  simp only [recRT, h]
  rw [if_neg hdie, if_neg hrefl]

theorem recRT_shape (env : Env) (scene : Scene) (depth : ℕ) :
    ∀ (ray : Ray) (path : RayPath) (ip : Bool),
      ∃ (ps : List Vec3) (ss : List RaySegmentType),
        ps ≠ [] ∧ ss.length = ps.length ∧
        (recRT env scene ray depth path ip).points = path.points ++ ps ∧
        (recRT env scene ray depth path ip).segment_types = path.segment_types ++ ss ∧
        (ip = true → ss.head? = some RaySegmentType.Primary) ∧
        ((recRT env scene ray depth path ip).hit = true ↔
          (path.hit = true ∨
            (depth ≠ 0 ∧ (scene.intersect ray (1 / 1000) ⊤).isSome = true))) := by
  induction depth with
  | zero =>
    intro ray path ip
    refine ⟨[ray.at 2], [if ip then RaySegmentType.Primary else RaySegmentType.Diffuse],
      by simp, by simp, rfl, rfl, ?_, ?_⟩
    · intro hip
      rw [hip]
      rfl
    · simp [recRT]
  | succ depth ih =>
    intro ray path ip
    rcases h : scene.intersect ray (1 / 1000) ⊤ with _ | hit
    · refine ⟨[ray.at 5], [if ip then RaySegmentType.Primary else RaySegmentType.Diffuse],
        by simp, by simp, ?_, ?_, ?_, ?_⟩
      · simp only [recRT, h]
      · simp only [recRT, h]
      · intro hip
        rw [hip]
        rfl
      · simp only [recRT, h]
        simp [h]
    · by_cases hdie : hit.material.mat_type = MaterialType.Dielectric
      · rw [recRT_step_diel env scene ray depth path ip hit h hdie]
        obtain ⟨ps, ss, hne, hlen, hpts, hsegs, _, hhit⟩ := ih
          ⟨hit.point, (dielectricScatter env (depth + 1) ray hit).1⟩
          { path with
            points := path.points ++ [hit.point],
            segment_types := path.segment_types ++
              [if ip then RaySegmentType.Primary
                else (dielectricScatter env (depth + 1) ray hit).2],
            hit := true } false
        refine ⟨[hit.point] ++ ps,
          [if ip then RaySegmentType.Primary
            else (dielectricScatter env (depth + 1) ray hit).2] ++ ss,
          by simp, by simp [hlen], by simp [hpts], by simp [hsegs], ?_, ?_⟩
        · intro hip
          rw [hip]
          rfl
        · rw [hhit]
          simp [h]
      · by_cases hrefl : hit.material.reflectivity > 0
        · rw [recRT_step_refl env scene ray depth path ip hit h hdie hrefl]
          obtain ⟨ps, ss, hne, hlen, hpts, hsegs, _, hhit⟩ := ih
            ⟨hit.point, Vec3.reflect ray.direction hit.normal⟩
            { path with
              points := path.points ++ [hit.point],
              segment_types := path.segment_types ++
                [if ip then RaySegmentType.Primary else RaySegmentType.Reflection],
              hit := true } false
          refine ⟨[hit.point] ++ ps,
            [if ip then RaySegmentType.Primary else RaySegmentType.Reflection] ++ ss,
            by simp, by simp [hlen], by simp [hpts], by simp [hsegs], ?_, ?_⟩
          · intro hip
            rw [hip]
            rfl
          · rw [hhit]
            simp [h]
        · rw [recRT_step_stop env scene ray depth path ip hit h hdie hrefl]
          refine ⟨[hit.point],
            [if ip then RaySegmentType.Primary else RaySegmentType.Diffuse],
            by simp, by simp, rfl, rfl, ?_, ?_⟩
          · intro hip
            rw [hip]
            rfl
          · simp [h]

theorem recPT_shape (env : Env) (scene : Scene) (depth : ℕ) :
    ∀ (ray : Ray) (path : RayPath) (ip : Bool),
      ∃ (ps : List Vec3) (ss : List RaySegmentType),
        ps ≠ [] ∧ ss.length = ps.length ∧
        (recPT env scene ray depth path ip).points = path.points ++ ps ∧
        (recPT env scene ray depth path ip).segment_types = path.segment_types ++ ss ∧
        (ip = true → ss.head? = some RaySegmentType.Primary) ∧
        ((recPT env scene ray depth path ip).hit = true ↔
          (path.hit = true ∨
            (depth ≠ 0 ∧ (scene.intersect ray (1 / 1000) ⊤).isSome = true))) := by
  induction depth with
  | zero =>
    intro ray path ip
    refine ⟨[ray.at 2], [if ip then RaySegmentType.Primary else RaySegmentType.Diffuse],
      by simp, by simp, rfl, rfl, ?_, ?_⟩
    · intro hip
      rw [hip]
      rfl
    · simp [recPT]
  | succ depth ih =>
    intro ray path ip
    rcases h : scene.intersect ray (1 / 1000) ⊤ with _ | hit
    · refine ⟨[ray.at 5], [if ip then RaySegmentType.Primary else RaySegmentType.Diffuse],
        by simp, by simp, ?_, ?_, ?_, ?_⟩
      · simp only [recPT, h]
      · simp only [recPT, h]
      · intro hip
        rw [hip]
        rfl
      · simp only [recPT, h]
        simp [h]
    · rw [recPT_step env scene ray depth path ip hit h]
      obtain ⟨ps, ss, hne, hlen, hpts, hsegs, _, hhit⟩ := ih
        ⟨hit.point, (ptScatter env (depth + 1) ray hit).1⟩
        { path with
          points := path.points ++ [hit.point],
          segment_types := path.segment_types ++
            [if ip then RaySegmentType.Primary else (ptScatter env (depth + 1) ray hit).2],
          hit := true } false
      refine ⟨[hit.point] ++ ps,
        [if ip then RaySegmentType.Primary else (ptScatter env (depth + 1) ray hit).2] ++ ss,
        by simp, by simp [hlen], by simp [hpts], by simp [hsegs], ?_, ?_⟩
      · intro hip
        rw [hip]
        rfl
      · rw [hhit]
        simp [h]

/-- C8: every path produced by `trace_paths` has at least two points, a
segment-type list exactly one shorter than its point list, `Primary` as
its first segment type, and its hit flag set iff a real scene
intersection occurred along the path — which, since the recorders stop on
a miss and only recurse after a hit, is exactly: the depth budget is
nonzero and the primary ray hits the scene. -/
theorem claim8_raypath_invariants (rt : Raytracer) (env : Env) (scene : Scene)
    (cam : Camera) (tanF : ℚ → ℚ) (uv : ℕ → ℚ × ℚ) (count : ℕ) (k : ℕ) (p : RayPath)
    (hp : (tracePaths rt env scene cam tanF uv count)[k]? = some p) :
    2 ≤ p.points.length ∧ p.segment_types.length = p.points.length - 1 ∧
      p.segment_types.head? = some RaySegmentType.Primary ∧
      (p.hit = true ↔ rt.max_bounces ≠ 0 ∧
        (scene.intersect (cam.getRay tanF (uv k).1 (uv k).2) (1 / 1000) ⊤).isSome = true) := by
  simp only [tracePaths, List.getElem?_map] at hp
  by_cases hk : k < count
  · rw [List.getElem?_range hk] at hp
    simp only [Option.map_some', Option.some.injEq] at hp
    subst hp
    rcases hmode : rt.mode with _ | _
    · simp only [hmode]
      obtain ⟨ps, ss, hne, hlen, hpts, hsegs, hhead, hhit⟩ :=
        recRT_shape env scene rt.max_bounces
          (cam.getRay tanF (uv k).1 (uv k).2)
          ⟨[(cam.getRay tanF (uv k).1 (uv k).2).origin], [], false⟩ true
      refine ⟨?_, ?_, ?_, ?_⟩
      · rw [hpts]
        have := List.length_pos.mpr hne
        simp only [List.length_append, List.length_cons, List.length_nil]
        omega
      · rw [hpts, hsegs]
        simp only [List.length_append, List.length_cons, List.length_nil, hlen]
        omega
      · rw [hsegs]
        simpa using hhead rfl
      · rw [hhit]
        simp
    · simp only [hmode]
      obtain ⟨ps, ss, hne, hlen, hpts, hsegs, hhead, hhit⟩ :=
        recPT_shape env scene rt.max_bounces
          (cam.getRay tanF (uv k).1 (uv k).2)
          ⟨[(cam.getRay tanF (uv k).1 (uv k).2).origin], [], false⟩ true
      refine ⟨?_, ?_, ?_, ?_⟩
      · rw [hpts]
        have := List.length_pos.mpr hne
        simp only [List.length_append, List.length_cons, List.length_nil]
        omega
      · rw [hpts, hsegs]
        simp only [List.length_append, List.length_cons, List.length_nil, hlen]
        omega
      · rw [hsegs]
        simpa using hhead rfl
      · rw [hhit]
        simp
  · rw [List.getElem?_eq_none (by simpa using not_lt.mp hk)] at hp
    exact absurd hp (by simp)

/-! ### Claim C10 -/

theorem retagMaterial_color (g : MaterialType → MaterialType) (m : Material) :
    (retagMaterial g m).color = m.color := rfl

theorem retagMaterial_specular (g : MaterialType → MaterialType) (m : Material) :
    (retagMaterial g m).specular = m.specular := rfl

theorem retagMaterial_shininess (g : MaterialType → MaterialType) (m : Material) :
    (retagMaterial g m).shininess = m.shininess := rfl

theorem retagMaterial_reflectivity (g : MaterialType → MaterialType) (m : Material) :
    (retagMaterial g m).reflectivity = m.reflectivity := rfl

theorem retagMaterial_roughness (g : MaterialType → MaterialType) (m : Material) :
    (retagMaterial g m).roughness = m.roughness := rfl

theorem retagMaterial_ior (g : MaterialType → MaterialType) (m : Material) :
    (retagMaterial g m).ior = m.ior := rfl

theorem retagMaterial_mat_type (g : MaterialType → MaterialType) (m : Material) :
    (retagMaterial g m).mat_type = g m.mat_type := rfl

theorem retagHit_material (g : MaterialType → MaterialType) (h : HitRecord) :
    (retagHit g h).material = retagMaterial g h.material := rfl

theorem retagHit_point (g : MaterialType → MaterialType) (h : HitRecord) :
    (retagHit g h).point = h.point := rfl

theorem retagHit_normal (g : MaterialType → MaterialType) (h : HitRecord) :
    (retagHit g h).normal = h.normal := rfl

theorem retagHit_t (g : MaterialType → MaterialType) (h : HitRecord) :
    (retagHit g h).t = h.t := rfl

theorem retagScene_lights (g : MaterialType → MaterialType) (s : Scene) :
    (retagScene g s).lights = s.lights := rfl

theorem sphere_retag_intersect (g : MaterialType → MaterialType) (sp : Sphere)
    (ray : Ray) (t_min : ℚ) (t_max : WithTop ℚ) :
    Sphere.intersect { sp with material := retagMaterial g sp.material } ray t_min t_max
      = (sp.intersect ray t_min t_max).map (retagHit g) := by
  simp only [Sphere.intersect]
  split_ifs <;> rfl

theorem plane_retag_intersect (g : MaterialType → MaterialType) (p : Plane)
    (ray : Ray) (t_min : ℚ) (t_max : WithTop ℚ) :
    Plane.intersect { p with material := retagMaterial g p.material } ray t_min t_max
      = (p.intersect ray t_min t_max).map (retagHit g) := by
  simp only [Plane.intersect]
  split_ifs <;> rfl

theorem cube_retag_intersect (g : MaterialType → MaterialType) (cb : Cube)
    (ray : Ray) (t_min : ℚ) (t_max : WithTop ℚ) :
    Cube.intersect { cb with material := retagMaterial g cb.material } ray t_min t_max
      = (cb.intersect ray t_min t_max).map (retagHit g) := by
  simp only [Cube.intersect, Option.map_map]
  rfl

theorem retag_queries (g : MaterialType → MaterialType) (s : Scene) (ray : Ray)
    (t_min : ℚ) :
    (retagScene g s).queries ray t_min
      = (s.queries ray t_min).map (fun q => fun ct => (q ct).map (retagHit g)) := by
  simp only [Scene.queries, retagScene, List.map_append, List.map_map]
  congr 1
  · congr 1
    · apply List.map_congr_left
      intro sp _
      funext ct
      exact sphere_retag_intersect g sp ray t_min ct
    · apply List.map_congr_left
      intro cb _
      funext ct
      exact cube_retag_intersect g cb ray t_min ct
  · apply List.map_congr_left
    intro pl _
    funext ct
    exact plane_retag_intersect g pl ray t_min ct

theorem scanStep_retag (g : MaterialType → MaterialType)
    (qs : List (WithTop ℚ → Option HitRecord)) :
    ∀ (b : Option HitRecord) (ct : WithTop ℚ),
      (qs.map (fun q => fun ct2 => (q ct2).map (retagHit g))).foldl scanStep
          (b.map (retagHit g), ct)
        = ((qs.foldl scanStep (b, ct)).1.map (retagHit g),
            (qs.foldl scanStep (b, ct)).2) := by
  induction qs with
  | nil => intro b ct; rfl
  | cons q qs ih =>
    intro b ct
    simp only [List.map_cons, List.foldl_cons]
    have hstep : scanStep (b.map (retagHit g), ct) (fun ct2 => (q ct2).map (retagHit g))
        = ((scanStep (b, ct) q).1.map (retagHit g), (scanStep (b, ct) q).2) := by
      simp only [scanStep]
      cases h : q ct with
      | none => rfl
      | some hit => rfl
    rw [hstep]
    exact ih (scanStep (b, ct) q).1 (scanStep (b, ct) q).2

theorem retag_scene_intersect (g : MaterialType → MaterialType) (s : Scene) (ray : Ray)
    (t_min : ℚ) (t_max : WithTop ℚ) :
    (retagScene g s).intersect ray t_min t_max
      = (s.intersect ray t_min t_max).map (retagHit g) := by
  rw [Scene.intersect_eq_scan, Scene.intersect_eq_scan, retag_queries]
  have h := scanStep_retag g (s.queries ray t_min) none t_max
  simp only [Option.map_none'] at h
  rw [h]

/-- C10: the Whitted integrator's radiance depends on a material's kind
tag only through the Dielectric test: retagging every material of the
scene by any map `g` of kind tags that preserves the Dielectric tag in
both directions — in particular any swap of Lambertian and Metal — while
keeping all other material fields leaves `trace_ray` unchanged, for every
environment, ray and depth. -/
theorem claim10_whitted_tag_independent (env : Env) (scene : Scene)
    (g : MaterialType → MaterialType)
    (hg : ∀ m, g m = MaterialType.Dielectric ↔ m = MaterialType.Dielectric) :
    ∀ (depth : ℕ) (ray : Ray),
      traceRay env (retagScene g scene) ray depth = traceRay env scene ray depth := by
  intro depth
  induction depth with
  | zero => intro ray; rfl
  | succ depth ih =>
    intro ray
    conv_lhs => rw [traceRay]
    conv_rhs => rw [traceRay]
    rw [retag_scene_intersect]
    cases h : scene.intersect ray (1 / 1000) ⊤ with
    | none => rfl
    | some hit =>
      simp only [Option.map_some', retagHit_material, retagHit_point, retagHit_normal,
        retagMaterial_color, retagMaterial_specular, retagMaterial_shininess,
        retagMaterial_reflectivity, retagMaterial_ior, retagMaterial_mat_type,
        retagScene_lights, retag_scene_intersect, Option.isNone_map', ih]
      by_cases hdie : hit.material.mat_type = MaterialType.Dielectric
      · rw [if_pos ((hg hit.material.mat_type).mpr hdie), if_pos hdie]
      · rw [if_neg (fun hc => hdie ((hg hit.material.mat_type).mp hc)), if_neg hdie]

/-- C10, witness: swapping the Lambertian and Metal tags of the one-sphere
scene leaves the Whitted radiance unchanged at depth 2. -/
theorem claim10_witness :
    (∀ m, swapLM m = MaterialType.Dielectric ↔ m = MaterialType.Dielectric) ∧
    traceRay env0 (retagScene swapLM oneSphereScene) axisRay 2
      = traceRay env0 oneSphereScene axisRay 2 := by
  have hg : ∀ m, swapLM m = MaterialType.Dielectric ↔ m = MaterialType.Dielectric := by
    intro m
    cases m <;> simp [swapLM]
  exact ⟨hg, claim10_whitted_tag_independent env0 oneSphereScene swapLM hg 2 axisRay⟩

/-! ### Claim C7 -/

theorem flatMap_range_const_length {α : Type} (c : ℕ) (f : ℕ → List α) :
    ∀ n : ℕ, (∀ i, i < n → (f i).length = c) →
      ((List.range n).flatMap f).length = n * c ∧
      (∀ i j, i < n → j < c →
        ((List.range n).flatMap f)[i * c + j]? = (f i)[j]?) := by
  intro n
  induction n with
  | zero =>
    intro _
    refine ⟨by simp, ?_⟩
    intro i j hi _
    exact absurd hi (Nat.not_lt_zero i)
  | succ n ih =>
    intro hf
    obtain ⟨ihl, ihg⟩ := ih (fun i hi => hf i (Nat.lt_succ_of_lt hi))
    have hsplit : (List.range (n + 1)).flatMap f = (List.range n).flatMap f ++ f n := by
      rw [List.range_succ, List.flatMap_append]
      simp
    refine ⟨?_, ?_⟩
    · rw [hsplit, List.length_append, ihl, hf n (Nat.lt_succ_self n)]
      ring
    · intro i j hi hj
      rw [hsplit]
      by_cases hin : i < n
      · have hb : i * c + j < ((List.range n).flatMap f).length := by
          rw [ihl]
          calc i * c + j < (i + 1) * c := by rw [Nat.add_mul]; omega
            _ ≤ n * c := Nat.mul_le_mul_right c hin
        rw [List.getElem?_append_left hb]
        exact ihg i j hin hj
      · have hieq : i = n := by omega
        subst hieq
        rw [List.getElem?_append_right (by rw [ihl]; exact Nat.le_add_right _ _)]
        rw [ihl, Nat.add_sub_cancel_left]

/-- C7: `render` returns exactly `width·height·4` bytes in row-major
order, pixel rows in increasing `y` (the source's `y`-outer `x`-inner
loops with `v = 1 − (y + jitter)/height`, so row 0 is the top of the
image): the four bytes of pixel `(x, y)` sit at offset `(y·width + x)·4`
and are the clamped, `255`-scaled R, G and B channels of the averaged
per-pixel radiance, followed by a constant alpha byte `255`. -/
theorem claim7_render_buffer (rt : Raytracer) (env : Env) (scene : Scene) (cam : Camera)
    (tanF : ℚ → ℚ) (jit : ℕ → ℚ) (_hw : 0 < rt.width) (_hh : 0 < rt.height)
    (_hs : 0 < rt.samples_per_pixel) :
    (render rt env scene cam tanF jit).length = rt.width * rt.height * 4 ∧
    (∀ x y : ℕ, x < rt.width → y < rt.height →
      (render rt env scene cam tanF jit)[(y * rt.width + x) * 4]?
          = some (toByte (pixelColor rt env scene cam tanF jit x y).x) ∧
        (render rt env scene cam tanF jit)[(y * rt.width + x) * 4 + 1]?
          = some (toByte (pixelColor rt env scene cam tanF jit x y).y) ∧
        (render rt env scene cam tanF jit)[(y * rt.width + x) * 4 + 2]?
          = some (toByte (pixelColor rt env scene cam tanF jit x y).z) ∧
        (render rt env scene cam tanF jit)[(y * rt.width + x) * 4 + 3]? = some 255) := by
  obtain ⟨hlen, hget⟩ := flatMap_range_const_length (rt.width * 4)
    (fun y => (List.range rt.width).flatMap
      (fun x => [toByte (pixelColor rt env scene cam tanF jit x y).x,
        toByte (pixelColor rt env scene cam tanF jit x y).y,
        toByte (pixelColor rt env scene cam tanF jit x y).z, 255]))
    rt.height
    (fun y _ => (flatMap_range_const_length 4
      (fun x => [toByte (pixelColor rt env scene cam tanF jit x y).x,
        toByte (pixelColor rt env scene cam tanF jit x y).y,
        toByte (pixelColor rt env scene cam tanF jit x y).z, 255])
      rt.width (fun _ _ => rfl)).1)
  constructor
  · exact hlen.trans (by ring)
  · intro x y hx hy
    obtain ⟨-, hinner⟩ := flatMap_range_const_length 4
      (fun x => [toByte (pixelColor rt env scene cam tanF jit x y).x,
        toByte (pixelColor rt env scene cam tanF jit x y).y,
        toByte (pixelColor rt env scene cam tanF jit x y).z, 255])
      rt.width (fun _ _ => rfl)
    refine ⟨?_, ?_, ?_, ?_⟩
    · have e := hget y (x * 4) hy (by omega)
      have i := hinner x 0 hx (by omega)
      rw [Nat.add_zero] at i
      rw [show (y * rt.width + x) * 4 = y * (rt.width * 4) + x * 4 from by ring]
      exact e.trans (i.trans rfl)
    · have e := hget y (x * 4 + 1) hy (by omega)
      have i := hinner x 1 hx (by omega)
      rw [show (y * rt.width + x) * 4 + 1 = y * (rt.width * 4) + (x * 4 + 1) from by ring]
      exact e.trans (i.trans rfl)
    · have e := hget y (x * 4 + 2) hy (by omega)
      have i := hinner x 2 hx (by omega)
      rw [show (y * rt.width + x) * 4 + 2 = y * (rt.width * 4) + (x * 4 + 2) from by ring]
      exact e.trans (i.trans rfl)
    · have e := hget y (x * 4 + 3) hy (by omega)
      have i := hinner x 3 hx (by omega)
      rw [show (y * rt.width + x) * 4 + 3 = y * (rt.width * 4) + (x * 4 + 3) from by ring]
      exact e.trans (i.trans rfl)

/-- C7, witness: the buffer layout applied to the 1×1 one-sample
configuration on the empty scene. -/
theorem claim7_witness :
    0 < rt0.width ∧ 0 < rt0.height ∧ 0 < rt0.samples_per_pixel ∧
    (render rt0 env0 emptyScene cam0 (fun _ => 1) (fun _ => 0)).length
      = rt0.width * rt0.height * 4 ∧
    (render rt0 env0 emptyScene cam0 (fun _ => 1) (fun _ => 0))[(0 * rt0.width + 0) * 4]?
      = some (toByte
          (pixelColor rt0 env0 emptyScene cam0 (fun _ => 1) (fun _ => 0) 0 0).x) ∧
    (render rt0 env0 emptyScene cam0 (fun _ => 1)
        (fun _ => 0))[(0 * rt0.width + 0) * 4 + 3]? = some 255 := by
  obtain ⟨hlen, hget⟩ := claim7_render_buffer rt0 env0 emptyScene cam0 (fun _ => 1)
    (fun _ => 0) (by decide) (by decide) (by decide)
  obtain ⟨h0, h1, h2, h3⟩ := hget 0 0 (by decide) (by decide)
  exact ⟨by decide, by decide, by decide, hlen, h0, h3⟩

/-! ### Claim C3 -/

set_option maxRecDepth 100000 in
theorem tracePT_step_lambertian (env : Env) (scene : Scene) (ray : Ray) (depth : ℕ)
    (hit : HitRecord) (h : scene.intersect ray (1 / 1000) ⊤ = some hit)
    (hmat : hit.material.mat_type = MaterialType.Lambertian) :
    tracePathtrace env scene ray (depth + 1)
      = directLight env scene ray hit + hit.material.color *
          tracePathtrace env scene
            ⟨hit.point, (ptScatter env (depth + 1) ray hit).1.normalize⟩ depth := by
  have hps : ptScatter env (depth + 1) ray hit
      = (hit.normal + env.ruv (depth + 1), RaySegmentType.Diffuse) := by
    simp only [ptScatter, hmat]
  conv_lhs => rw [tracePathtrace]
  rw [h, hps]
  delta directLight
  simp only [hmat]

theorem tracePT_step_metal_scatter (env : Env) (scene : Scene) (ray : Ray) (depth : ℕ)
    (hit : HitRecord) (h : scene.intersect ray (1 / 1000) ⊤ = some hit)
    (hmat : hit.material.mat_type = MaterialType.Metal)
    (hpos : 0 < Vec3.dot (ptScatter env (depth + 1) ray hit).1 hit.normal) :
    tracePathtrace env scene ray (depth + 1)
      = directLight env scene ray hit + hit.material.color *
          tracePathtrace env scene
            ⟨hit.point, (ptScatter env (depth + 1) ray hit).1⟩ depth := by
  simp only [ptScatter, hmat] at hpos
  conv_lhs => rw [tracePathtrace]
  simp only [h, hmat, directLight, ptScatter]
  rw [if_neg (not_le.mpr hpos)]

theorem tracePT_step_metal_absorbed (env : Env) (scene : Scene) (ray : Ray) (depth : ℕ)
    (hit : HitRecord) (h : scene.intersect ray (1 / 1000) ⊤ = some hit)
    (hmat : hit.material.mat_type = MaterialType.Metal)
    (habs : Vec3.dot (ptScatter env (depth + 1) ray hit).1 hit.normal ≤ 0) :
    tracePathtrace env scene ray (depth + 1) = directLight env scene ray hit := by
  simp only [ptScatter, hmat] at habs
  conv_lhs => rw [tracePathtrace]
  simp only [h, hmat, directLight, ptScatter]
  rw [if_pos habs]

theorem tracePT_step_dielectric (env : Env) (scene : Scene) (ray : Ray) (depth : ℕ)
    (hit : HitRecord) (h : scene.intersect ray (1 / 1000) ⊤ = some hit)
    (hmat : hit.material.mat_type = MaterialType.Dielectric) :
    tracePathtrace env scene ray (depth + 1)
      = directLight env scene ray hit + Vec3.one *
          tracePathtrace env scene
            ⟨hit.point, (ptScatter env (depth + 1) ray hit).1⟩ depth := by
  have hps : ptScatter env (depth + 1) ray hit
      = dielectricScatter env (depth + 1) ray hit := by
    simp only [ptScatter, hmat]
  conv_lhs => rw [tracePathtrace]
  rw [h, hps]
  delta directLight dielectricScatter
  simp only [hmat]
  rw [apply_ite (Prod.fst : Vec3 × RaySegmentType → Vec3)]

theorem metal_scene_first_hit :
    metalScene.intersect axisRay (1 / 1000) ⊤ = some metalHit := by
  norm_num [Scene.intersect, metalScene, Sphere.intersect, metalSphere, metalHit,
    axisRay, metalMat, Vec3.length_squared, Vec3.dot, Vec3.sub_def, ratSqrt_one,
    Ray.at, Vec3.add_def, Vec3.scale, WithTop.coe_lt_top]

theorem metal_scene_second_hit :
    metalScene.intersect ⟨⟨0, 0, 1⟩, ⟨0, 0, -1⟩⟩ (1 / 1000) ⊤ = some metalHit2 := by
  norm_num [Scene.intersect, metalScene, Sphere.intersect, metalSphere, metalHit2,
    metalMat, Vec3.length_squared, Vec3.dot, Vec3.sub_def, ratSqrt_one,
    Ray.at, Vec3.add_def, Vec3.scale, WithTop.coe_lt_top]

theorem metal_scene_third_miss :
    metalScene.intersect ⟨⟨0, 0, -1⟩, ⟨0, 0, -1⟩⟩ (1 / 1000) ⊤ = none := by
  norm_num [Scene.intersect, metalScene, Sphere.intersect, metalSphere,
    metalMat, Vec3.length_squared, Vec3.dot, Vec3.sub_def, ratSqrt_one]

theorem metal_scatter_one : ptScatter env0 (2 + 1) axisRay metalHit
    = (⟨0, 0, -1⟩, RaySegmentType.Reflection) := by
  norm_num [ptScatter, metalHit, metalMat, env0, Vec3.reflect, Vec3.normalize,
    Vec3.length, Vec3.length_squared, Vec3.dot, Vec3.scale, Vec3.sub_def,
    Vec3.add_def, Vec3.neg_def, ratSqrt_one, axisRay]

theorem metal_scatter_two : ptScatter env0 (1 + 1) ⟨⟨0, 0, 1⟩, ⟨0, 0, -1⟩⟩ metalHit2
    = (⟨0, 0, -1⟩, RaySegmentType.Reflection) := by
  norm_num [ptScatter, metalHit2, metalMat, env0, Vec3.reflect, Vec3.normalize,
    Vec3.length, Vec3.length_squared, Vec3.dot, Vec3.scale, Vec3.sub_def,
    Vec3.add_def, Vec3.neg_def, ratSqrt_one]

theorem metal_direct_zero : directLight env0 metalScene axisRay metalHit = Vec3.zero := by
  norm_num [directLight, metalHit, metalMat, metalScene, decide_eq_true_eq]

/-- C3, counterexample: in the rough-metal scene the integrator absorbs the
ray at the first hit (the perturbed reflection points into the surface)
and returns only the — here zero — direct light, but the recorder does
not mirror the absorption termination: it tags a Reflection segment and
keeps walking, recording a second hit and a further miss segment (4
points, 3 segments) where branch-faithful recording would stop at the
absorbed hit. -/
theorem claim3_counterexample :
    metalScene.intersect axisRay (1 / 1000) ⊤ = some metalHit ∧
    metalHit.material.mat_type = MaterialType.Metal ∧
    Vec3.dot (ptScatter env0 3 axisRay metalHit).1 metalHit.normal ≤ 0 ∧
    tracePathtrace env0 metalScene axisRay 3 = Vec3.zero ∧
    recPT env0 metalScene axisRay 3 ⟨[axisRay.origin], [], false⟩ true
      = ⟨[⟨0, 0, 5⟩, ⟨0, 0, 1⟩, ⟨0, 0, -1⟩, ⟨0, 0, -6⟩],
          [RaySegmentType.Primary, RaySegmentType.Reflection, RaySegmentType.Diffuse],
          true⟩ := by
  have habs : Vec3.dot (ptScatter env0 (2 + 1) axisRay metalHit).1 metalHit.normal ≤ 0 := by
    rw [metal_scatter_one]
    norm_num [Vec3.dot, metalHit]
  refine ⟨metal_scene_first_hit, rfl, habs, ?_, ?_⟩
  · rw [show (3 : ℕ) = 2 + 1 from rfl,
      tracePT_step_metal_absorbed env0 metalScene axisRay 2 metalHit
        metal_scene_first_hit rfl habs]
    exact metal_direct_zero
  · rw [show (3 : ℕ) = 2 + 1 from rfl,
      recPT_step env0 metalScene axisRay 2 ⟨[axisRay.origin], [], false⟩ true metalHit
        metal_scene_first_hit, metal_scatter_one]
    norm_num [metalHit, axisRay]
    rw [show (2 : ℕ) = 1 + 1 from rfl,
      recPT_step env0 metalScene ⟨⟨0, 0, 1⟩, ⟨0, 0, -1⟩⟩ 1
        ⟨[⟨0, 0, 5⟩, ⟨0, 0, 1⟩], [RaySegmentType.Primary], true⟩ false metalHit2
        metal_scene_second_hit, metal_scatter_two]
    norm_num [metalHit2]
    rw [show (1 : ℕ) = 0 + 1 from rfl]
    simp only [recPT, metal_scene_third_miss]
    norm_num [Ray.at, Vec3.scale, Vec3.add_def]

/-- C3, amended: with identical random draws the recorder and the
path-tracing integrator agree branch for branch at every hit — identical
Schlick/critical-angle reflect-or-refract selection at Dielectric hits
(tagged Reflection/Refraction accordingly), the identical perturbed
mirror direction at Metal hits (tagged Reflection), the same diffuse
scatter at Lambertian hits (tagged Diffuse; the integrator normalizes the
direction, the recorder records it unnormalized) — EXCEPT that the Metal
absorption termination is not mirrored: when the perturbed reflection
points into the surface the integrator stops with the direct light only,
while the recorder still tags Reflection and recurses along it. -/
theorem claim3_branch_correspondence (env : Env) (scene : Scene) (ray : Ray)
    (depth : ℕ) (path : RayPath) (ip : Bool) (hit : HitRecord)
    (h : scene.intersect ray (1 / 1000) ⊤ = some hit) :
    (recPT env scene ray (depth + 1) path ip =
      recPT env scene ⟨hit.point, (ptScatter env (depth + 1) ray hit).1⟩ depth
        { path with
          points := path.points ++ [hit.point],
          segment_types := path.segment_types ++
            [if ip then RaySegmentType.Primary else (ptScatter env (depth + 1) ray hit).2],
          hit := true } false) ∧
    (hit.material.mat_type = MaterialType.Lambertian →
      (ptScatter env (depth + 1) ray hit).2 = RaySegmentType.Diffuse ∧
      (ptScatter env (depth + 1) ray hit).1 = hit.normal + env.ruv (depth + 1) ∧
      tracePathtrace env scene ray (depth + 1)
        = directLight env scene ray hit + hit.material.color *
            tracePathtrace env scene
              ⟨hit.point, (ptScatter env (depth + 1) ray hit).1.normalize⟩ depth) ∧
    (hit.material.mat_type = MaterialType.Metal →
      (ptScatter env (depth + 1) ray hit).2 = RaySegmentType.Reflection ∧
      (0 < Vec3.dot (ptScatter env (depth + 1) ray hit).1 hit.normal →
        tracePathtrace env scene ray (depth + 1)
          = directLight env scene ray hit + hit.material.color *
              tracePathtrace env scene
                ⟨hit.point, (ptScatter env (depth + 1) ray hit).1⟩ depth) ∧
      (Vec3.dot (ptScatter env (depth + 1) ray hit).1 hit.normal ≤ 0 →
        tracePathtrace env scene ray (depth + 1) = directLight env scene ray hit)) ∧
    (hit.material.mat_type = MaterialType.Dielectric →
      ptScatter env (depth + 1) ray hit = dielectricScatter env (depth + 1) ray hit ∧
      directLight env scene ray hit = Vec3.zero ∧
      tracePathtrace env scene ray (depth + 1)
        = directLight env scene ray hit + Vec3.one *
            tracePathtrace env scene
              ⟨hit.point, (ptScatter env (depth + 1) ray hit).1⟩ depth) := by
  refine ⟨recPT_step env scene ray depth path ip hit h, ?_, ?_, ?_⟩
  · intro hmat
    refine ⟨by simp only [ptScatter, hmat], by simp only [ptScatter, hmat], ?_⟩
    exact tracePT_step_lambertian env scene ray depth hit h hmat
  · intro hmat
    refine ⟨by simp only [ptScatter, hmat], ?_, ?_⟩
    · exact tracePT_step_metal_scatter env scene ray depth hit h hmat
    · exact tracePT_step_metal_absorbed env scene ray depth hit h hmat
  · intro hmat
    refine ⟨by simp only [ptScatter, hmat], ?_, ?_⟩
    · delta directLight
      simp only [hmat]
      rw [if_pos trivial]
    · exact tracePT_step_dielectric env scene ray depth hit h hmat

/-- C3, witness: the branch correspondence instantiated at the rough-metal
hit of the counterexample scene: the recorder steps with the Metal tag
Reflection, and since the perturbed reflection enters the surface the
integrator returns only the direct light. -/
theorem claim3_witness :
    metalScene.intersect axisRay (1 / 1000) ⊤ = some metalHit ∧
    (ptScatter env0 (2 + 1) axisRay metalHit).2 = RaySegmentType.Reflection ∧
    (Vec3.dot (ptScatter env0 (2 + 1) axisRay metalHit).1 metalHit.normal ≤ 0 →
      tracePathtrace env0 metalScene axisRay (2 + 1)
        = directLight env0 metalScene axisRay metalHit) := by
  obtain ⟨-, -, hmetal, -⟩ := claim3_branch_correspondence env0 metalScene axisRay 2
    ⟨[axisRay.origin], [], false⟩ true metalHit metal_scene_first_hit
  obtain ⟨htag, -, habs⟩ := hmetal rfl
  exact ⟨metal_scene_first_hit, htag, habs⟩

theorem cam0_ray : cam0.getRay (fun _ => 1) 0 0 = ⟨⟨0, 0, 0⟩, ⟨-1, -1, -1⟩⟩ := by
  norm_num [Camera.getRay, cam0, Transform.forward, Transform.right, Transform.up,
    Quat.rotate, Vec3.cross, Vec3.scale, Vec3.add_def, Vec3.sub_def]

theorem empty_scene_miss (ray : Ray) (t_min : ℚ) (t_max : WithTop ℚ) :
    emptyScene.intersect ray t_min t_max = none := rfl

/-- C8, witness: the invariants applied to the single path the 1×1
configuration records in the empty scene. -/
theorem claim8_witness :
    (tracePaths rt0 env0 emptyScene cam0 (fun _ => 1) (fun _ => (0, 0)) 1)[0]?
        = some p8 ∧
    2 ≤ p8.points.length ∧ p8.segment_types.length = p8.points.length - 1 ∧
      p8.segment_types.head? = some RaySegmentType.Primary ∧
      (p8.hit = true ↔ rt0.max_bounces ≠ 0 ∧
        (emptyScene.intersect (cam0.getRay (fun _ => 1) 0 0) (1 / 1000) ⊤).isSome
          = true) := by
  have hp : (tracePaths rt0 env0 emptyScene cam0 (fun _ => 1) (fun _ => (0, 0)) 1)[0]?
      = some p8 := by
    have hr1 : List.range 1 = [0] := rfl
    simp only [tracePaths, rt0, hr1, List.map_cons, List.map_nil, cam0_ray]
    rw [show (1 : ℕ) = 0 + 1 from rfl]
    simp only [recPT, recRT, empty_scene_miss]
    norm_num [Ray.at, Vec3.scale, Vec3.add_def, p8]
  exact ⟨hp, claim8_raypath_invariants rt0 env0 emptyScene cam0 (fun _ => 1)
    (fun _ => (0, 0)) 1 0 p8 hp⟩

theorem ratFloorEq (q : ℚ) (n : ℤ) (h1 : (n : ℚ) ≤ q) (h2 : q < n + 1) :
    Rat.floor q = n := by
  have ha : n ≤ Rat.floor q := Rat.le_floor.mpr h1
  have hb : ¬ n + 1 ≤ Rat.floor q := by
    intro hc
    have hq := Rat.le_floor.mp hc
    push_cast at hq
    linarith
  omega

theorem toByte_red1 : toByte (3 / 4) = 191 := by
  simp only [toByte]
  rw [max_eq_left (by norm_num : (0 : ℚ) ≤ 3 / 4),
    min_eq_left (by norm_num : (3 / 4 : ℚ) ≤ 1),
    show (3 / 4 : ℚ) * 255 = 765 / 4 from by norm_num,
    ratFloorEq (765 / 4) 191 (by norm_num) (by norm_num)]
  rfl

theorem toByte_red2 : toByte (17 / 20) = 216 := by
  simp only [toByte]
  rw [max_eq_left (by norm_num : (0 : ℚ) ≤ 17 / 20),
    min_eq_left (by norm_num : (17 / 20 : ℚ) ≤ 1),
    show (17 / 20 : ℚ) * 255 = 867 / 4 from by norm_num,
    ratFloorEq (867 / 4) 216 (by norm_num) (by norm_num)]
  rfl

theorem toByte_red3 : toByte 1 = 255 := by
  simp only [toByte]
  rw [max_eq_left (by norm_num : (0 : ℚ) ≤ 1), min_self,
    show (1 : ℚ) * 255 = 255 from by norm_num,
    ratFloorEq 255 255 (by norm_num) (by norm_num)]
  rfl

theorem traceRay_miss_empty (env : Env) (r : Ray) (depth : ℕ) :
    traceRay env emptyScene r (depth + 1) = skyColor r := by
  simp only [traceRay, empty_scene_miss]

theorem cam0_ray_top : cam0.getRay (fun _ => 1) 0 1 = ⟨⟨0, 0, 0⟩, ⟨-1, 1, -1⟩⟩ := by
  norm_num [Camera.getRay, cam0, Transform.forward, Transform.right, Transform.up,
    Quat.rotate, Vec3.cross, Vec3.scale, Vec3.add_def, Vec3.sub_def]

theorem sky0 : skyColor ⟨⟨0, 0, 0⟩, ⟨-1, 1, -1⟩⟩ = ⟨3 / 4, 17 / 20, 1⟩ := by
  norm_num [skyColor, Vec3.normalize, Vec3.length, Vec3.length_squared, Vec3.dot,
    Vec3.scale, Vec3.add_def, Vec3.one, ratSqrt_three]

theorem pixel00 : pixelColor rt0 env0 emptyScene cam0 (fun _ => 1) (fun _ => 0) 0 0
    = ⟨3 / 4, 17 / 20, 1⟩ := by
  have hr1 : List.range 1 = [0] := rfl
  have hspp : rt0.samples_per_pixel = 1 := rfl
  have hwidth : rt0.width = 1 := rfl
  have hbounce : rt0.max_bounces = 1 := rfl
  have hmode : rt0.mode = RenderMode.Raytracing := rfl
  simp only [pixelColor, hspp, hwidth, hbounce, hmode, hr1, List.foldl_cons,
    List.foldl_nil]
  norm_num [cam0_ray_top]
  rw [traceRay_miss_empty env0 _ 0, sky0]
  norm_num [Vec3.scale, Vec3.add_def, Vec3.zero]

/-- Evaluation: the 1×1 one-sample render of the empty scene through
`cam0` produces exactly the bytes `[191, 216, 255, 255]` (the sky
gradient at `v = 1`, alpha 255). -/
theorem render0_eval :
    render rt0 env0 emptyScene cam0 (fun _ => 1) (fun _ => 0) = [191, 216, 255, 255] := by
  have hr1 : List.range 1 = [0] := rfl
  have hheight : rt0.height = 1 := rfl
  have hwidth : rt0.width = 1 := rfl
  simp only [render, hheight, hwidth, hr1, List.flatMap_cons, List.flatMap_nil,
    List.append_nil, pixel00, toByte_red1, toByte_red2, toByte_red3]

end RT
